import Mathlib

/-!
Verification model of the survivor-pool staking and settlement engine of
this repository (`webapp/main.py`, `bot/handlers/admin.py`,
`database/models.py`).

Modelling conventions:
* SQLAlchemy rows become Lean structures; tables become lists kept in
  insertion order (matching autoincrement-id order, which is the order the
  source's queries observe).
* Python floats (USDT amounts, stakes) are modelled as exact rationals;
  the source's `round(x, 2)` / `round(x, 6)` is modelled as half-up
  decimal rounding on rationals.
* Every HTTP endpoint raises `HTTPException` before any of its own
  mutations are committed (the session is discarded on error), so
  fallible operations return `Except Err St`; an error carries no state
  change, mirroring the rollback.
* Not modelled (external collaborators, no claim mentions them):
  Telegram auth, TON payment plumbing, kickoff-time betting deadlines
  (`_can_bet_round` returns `True` when no kickoff times are stored;
  matches here carry no kickoff time), the achievements table, and the
  randomness source (randomly generated goals enter as explicit
  arguments).
-/

inductive GStatus
  | active
  | finished
deriving DecidableEq, Repr

inductive EStatus
  | active
  | out
  | cashedOut
deriving DecidableEq, Repr

inductive TkStatus
  | active
  | out
deriving DecidableEq, Repr

/-- Row of the `users` table (`tg_id`, `balance_usdt`); the legacy integer
`balance` column is unused by the engine and omitted. A `NULL`
`balance_usdt` is normalised to `0.0` by every endpoint before use, so the
balance is modelled as a plain rational. -/
structure UserR where
  id : Nat
  balanceUsdt : ℚ
deriving DecidableEq, Repr

/-- Row of the `games` table. `start_matchday` is only used to pick which
external matchday to fetch and is not claim-relevant, so it is omitted. -/
structure GameSt where
  title : String
  roundsTotal : Nat
  currentRound : Nat
  status : GStatus
deriving DecidableEq, Repr

/-- Row of the `entries` table; `stake` (legacy integer) and
`stake_amount` (legacy float) are the nullable single-stake columns. -/
structure EntryR where
  id : Nat
  userId : Nat
  status : EStatus
  stake : Option ℚ
  stakeAmount : Option ℚ
deriving DecidableEq, Repr

/-- Row of the `tickets` table. -/
structure TicketR where
  entryId : Nat
  ticketIndex : Nat
  stakeAmount : ℚ
  status : TkStatus
deriving DecidableEq, Repr

/-- Row of the `selections` table (a Pick). -/
structure SelectionR where
  entryId : Nat
  ticketIndex : Nat
  round : Nat
  team1Id : Nat
  team2Id : Nat
deriving DecidableEq, Repr

/-- Row of the `matches` table (a Fixture). Kickoff time, external id and
live status are feed plumbing and omitted; goals are nullable. -/
structure MatchR where
  round : Nat
  homeTeamId : Nat
  awayTeamId : Nat
  homeGoals : Option Nat
  awayGoals : Option Nat
deriving DecidableEq, Repr

/-- The database state, restricted to one game (every claim concerns a
single game; the source keys matches and entries by `game_id`, which the
single-game restriction makes implicit). `teams` is the `teams` table
with team identity abstracted to ids (the source resolves unique names to
rows). -/
structure St where
  game : GameSt
  teams : List Nat
  users : List UserR
  entries : List EntryR
  tickets : List TicketR
  selections : List SelectionR
  fixtures : List MatchR
  nextEntryId : Nat
deriving DecidableEq, Repr

/-- Executable rational addition. Batteries marks the standard `Rat`
operations `@[irreducible]`, which blocks kernel evaluation of concrete
witness states, so the model computes with these reducible clones; they
are proved equal to the standard operations (`qAdd_eq` and friends)
below, and the claim statements are phrased through those equations. -/
def qAdd (a b : ℚ) : ℚ := mkRat (a.num * b.den + b.num * a.den) (a.den * b.den)

/-- Executable rational multiplication; equals `a * b` (`qMul_eq`). -/
def qMul (a b : ℚ) : ℚ := mkRat (a.num * b.num) (a.den * b.den)

/-- Executable rational subtraction; equals `a - b` (`qSub_eq`). -/
def qSub (a b : ℚ) : ℚ := qAdd a (-b)

/-- Python `sum(...)` over a list of amounts (left fold from 0);
equals `l.sum` (`qSum_eq`). -/
def qSum (l : List ℚ) : ℚ := l.foldl qAdd 0

/-- Floor of a rational as an integer, via floor division of numerator by
denominator; equals `Int.floor` (`floorQ_eq`). -/
def floorQ (q : ℚ) : ℤ := Int.fdiv q.num (q.den : ℤ)

/-- Rounding a rational to the nearest integer, halves up (Python's
half-even tie-break is never exercised by any claim input); equals
Mathlib's `round` (`roundHalfUp_eq`). -/
def roundHalfUp (q : ℚ) : ℤ := floorQ (qAdd q (mkRat 1 2))

/-- Python `round(x, 2)` on a monetary rational. -/
def round2 (q : ℚ) : ℚ := mkRat (roundHalfUp (qMul q 100)) 100

/-- Python `round(x, 6)`, used by `_set_balance`. -/
def round6 (q : ℚ) : ℚ := mkRat (roundHalfUp (qMul q 1000000)) 1000000

/-- Python `a or b` on an optional number: `None` and `0` both fall
through to `b` (used by `entry.stake_amount or entry.stake or 0`). -/
def pyOrQ (a : Option ℚ) (b : ℚ) : ℚ :=
  match a with
  | none => b
  | some v => if v = 0 then b else v

/-- Python `a or b` on an optional integer: `None` and `0` fall through
(used by `body.num_tickets or 1` and `body.ticket_index or 1`). -/
def pyOrInt (a : Option Int) (b : Int) : Int :=
  match a with
  | none => b
  | some v => if v = 0 then b else v

/-- Mirrors `_balance`: a missing user (or missing column value) reads as
`0.0`. -/
def balanceOf (s : St) (uid : Nat) : ℚ :=
  match s.users.find? (fun u => u.id == uid) with
  | some u => u.balanceUsdt
  | none => 0

/-- Mirrors the `if not user: db.add(User(...))` preamble of the
endpoints: create the user row with zero balance when absent. -/
def ensureUser (s : St) (uid : Nat) : St :=
  if (s.users.find? (fun u => u.id == uid)).isSome then s
  else { s with users := s.users ++ [⟨uid, 0⟩] }

/-- Mirrors `_set_balance`: stores the balance rounded to 6 decimals.
When the user row is absent this is a no-op (the source guards the call
with `if user:`). -/
def setUserBalance (s : St) (uid : Nat) (v : ℚ) : St :=
  { s with users := s.users.map (fun u =>
      if u.id == uid then { u with balanceUsdt := round6 v } else u) }

def findEntry (s : St) (eid : Nat) : Option EntryR :=
  s.entries.find? (fun e => e.id == eid)

/-- The query `select(Ticket).where(entry_id == eid, ticket_index == tidx)
... .first()`. -/
def findTicket (tks : List TicketR) (eid tidx : Nat) : Option TicketR :=
  tks.find? (fun t => t.entryId == eid && t.ticketIndex == tidx)

/-- Mutating the ticket row that `findTicket` returned: update the first
list element with the given key. -/
def updateFirstTicket (tks : List TicketR) (eid tidx : Nat) (f : TicketR → TicketR) :
    List TicketR :=
  match tks with
  | [] => []
  | t :: rest =>
    if t.entryId == eid && t.ticketIndex == tidx then f t :: rest
    else t :: updateFirstTicket rest eid tidx f

/-- Mutating the entry row fetched by primary key: `e.status = "out"`. -/
def setEntryOut (ens : List EntryR) (eid : Nat) : List EntryR :=
  ens.map (fun e => if e.id == eid then { e with status := EStatus.out } else e)

/-- Fixtures of one round of the game, in id order. -/
def roundMatches (s : St) (rnd : Nat) : List MatchR :=
  s.fixtures.filter (fun m => m.round == rnd)

/-- The `scored_team_ids` set built in `_apply_round_results`: a team is
collected when it has at least one goal in a fixture of the round (a
`NULL` goal counts as 0, via the source's `or 0`). -/
def scoredTeamIds : List MatchR → List Nat
  | [] => []
  | m :: rest =>
    (if 1 ≤ m.homeGoals.getD 0 then [m.homeTeamId] else []) ++
    (if 1 ≤ m.awayGoals.getD 0 then [m.awayTeamId] else []) ++
    scoredTeamIds rest

/-- Negation of the early-return guard
`if not matches or matches[0].home_goals is None: return`. -/
def roundScored (ms : List MatchR) : Bool :=
  match ms with
  | [] => false
  | m :: _ => m.homeGoals.isSome

/-- One iteration of the settlement loop of `_apply_round_results`:
evaluate one Selection row of the round against the scored set; a passing
pick multiplies the ticket stake by 1.5, a failing one puts the ticket
out and, when that was the entry's last active ticket, puts the entry
out. -/
def processSelection (scored : List Nat) (acc : List TicketR × List EntryR)
    (sel : SelectionR) : List TicketR × List EntryR :=
  match findTicket acc.1 sel.entryId sel.ticketIndex with
  | none => acc
  | some tk =>
    if tk.status ≠ TkStatus.active then acc
    else if scored.contains sel.team1Id && scored.contains sel.team2Id then
      (updateFirstTicket acc.1 sel.entryId sel.ticketIndex
        (fun t => { t with stakeAmount := qMul t.stakeAmount (mkRat 3 2) }), acc.2)
    else
      let tks := updateFirstTicket acc.1 sel.entryId sel.ticketIndex
        (fun t => { t with status := TkStatus.out })
      let stillActive := tks.find? (fun t =>
        t.entryId == sel.entryId && t.status == TkStatus.active)
      if stillActive.isSome then (tks, acc.2)
      else (tks, setEntryOut acc.2 sel.entryId)

/-- The settlement engine `_apply_round_results(db, game, rnd)`: no-op
when the round has no fixtures or its first fixture has no score yet;
otherwise evaluate every Selection of the round, then advance
`current_round` by one and finish the game when it passes
`rounds_total`. -/
def applyRoundResults (s : St) (rnd : Nat) : St :=
  let ms := roundMatches s rnd
  if roundScored ms then
    let scored := scoredTeamIds ms
    let rows := s.selections.filter (fun sel => sel.round == rnd)
    let res := rows.foldl (processSelection scored) (s.tickets, s.entries)
    let cr := s.game.currentRound + 1
    let gst := if s.game.roundsTotal < cr then GStatus.finished else s.game.status
    { s with tickets := res.1, entries := res.2,
             game := { s.game with currentRound := cr, status := gst } }
  else s

/-- Failure outcomes of the endpoints, one constructor per distinct
`HTTPException` site that the claims mention (and the validation-order
neighbours they interact with). -/
inductive Err
  | gameNotActive
  | entryNotFound
  | entryNotActive
  | ticketNotActive
  | teamNotInRound
  | teamAlreadyUsed
  | duplicateTeam
  | unknownTeam
  | noMoreRounds
  | emptyBalance
  | alreadyJoined
  | invalidStake
  | insufficientBalance
  | depositTooSmall
  | noSelection
  | noMatches
deriving DecidableEq, Repr

/-- An error response leaves the database unchanged (the session is
discarded without commit), so recovery is just the pre-state. -/
def stOf (s : St) : Except Err St → St
  | .ok s1 => s1
  | .error _ => s

/-- Team ids collected from a list of Selection rows (the
`used_team_ids.add(row[0]); used_team_ids.add(row[1])` loop; only
membership is ever consulted). -/
def collectTeamIds : List SelectionR → List Nat
  | [] => []
  | sel :: rest => sel.team1Id :: sel.team2Id :: collectTeamIds rest

/-- Teams already used by one ticket in rounds strictly before `rnd`
(the `Selection.round < rnd` query of `submit_two_teams`). -/
def usedTeamIds (s : St) (eid tidx rnd : Nat) : List Nat :=
  collectTeamIds (s.selections.filter (fun sel =>
    sel.entryId == eid && sel.ticketIndex == tidx && sel.round < rnd))

/-- Teams used by any Pick of the entry, all rounds and tickets (the
`entry.selections` set of the legacy `submit_selection`). -/
def usedAllTeamIds (s : St) (eid : Nat) : List Nat :=
  collectTeamIds (s.selections.filter (fun sel => sel.entryId == eid))

/-- Endpoint `POST /api/entry/{entry_id}/submit_teams`
(`submit_two_teams`): validate and store one ticket's two-team pick for
the current round, replacing any prior pick of that ticket for this
round. Kickoff deadlines are not modelled (no kickoff times stored means
`_can_bet_round` is `True`). -/
def submitTwoTeams (s : St) (entryId : Nat) (t1 t2 : Nat) (tidxBody : Option Int) :
    Except Err St :=
  match findEntry s entryId with
  | none => .error .entryNotFound
  | some e =>
    if e.status ≠ EStatus.active then .error .entryNotActive
    else if s.game.status ≠ GStatus.active then .error .gameNotActive
    else
      let rnd := s.game.currentRound
      let tidx := (max 1 (pyOrInt tidxBody 1)).toNat
      match findTicket s.tickets entryId tidx with
      | none => .error .ticketNotActive
      | some tk =>
        if tk.status ≠ TkStatus.active then .error .ticketNotActive
        else
          let ms := roundMatches s rnd
          let allowed := ms.foldl (fun a m => m.homeTeamId :: m.awayTeamId :: a) []
          let used := usedTeamIds s entryId tidx rnd
          if ¬ (allowed.contains t1 && allowed.contains t2) then .error .teamNotInRound
          else if used.contains t1 || used.contains t2 then .error .teamAlreadyUsed
          else if t1 == t2 then .error .duplicateTeam
          else
            .ok { s with selections :=
              (s.selections.filter (fun sel =>
                !(sel.entryId == entryId && sel.ticketIndex == tidx && sel.round == rnd)))
              ++ [⟨entryId, tidx, rnd, t1, t2⟩] }

/-- Endpoint `POST /api/selection` (`submit_selection`), the legacy pick
path: checks the teams against every team the entry ever used, then
inserts a Selection with the default `ticket_index = 1` for the current
round without deleting any prior one. -/
def submitSelection (s : St) (entryId t1 t2 : Nat) : Except Err St :=
  match findEntry s entryId with
  | none => .error .entryNotFound
  | some e =>
    if e.status ≠ EStatus.active then .error .entryNotActive
    else if s.game.status ≠ GStatus.active then .error .gameNotActive
    else
      let rnd := s.game.currentRound
      if s.game.roundsTotal < rnd then .error .noMoreRounds
      else
        let used := usedAllTeamIds s entryId
        if used.contains t1 || used.contains t2 then .error .teamAlreadyUsed
        else if t1 == t2 then .error .duplicateTeam
        else if ¬ (s.teams.contains t1 && s.teams.contains t2) then .error .unknownTeam
        else .ok { s with selections := s.selections ++ [⟨entryId, 1, rnd, t1, t2⟩] }

/-- Endpoint `POST /api/join_game` (`join_game`); the `game_id` argument
is implicit in the single-game model, so the game-not-found branch drops
out. Validation order follows the source: active game, positive balance,
no prior entry for this user and game, minimum stake, then the affordable
check against the rounded total cost. -/
def joinGame (s : St) (uid : Nat) (stake : Option ℚ) (numTickets : Option Int) :
    Except Err St :=
  if s.game.status ≠ GStatus.active then .error .gameNotActive
  else
    let bal := balanceOf s uid
    if bal ≤ 0 then .error .emptyBalance
    else if (s.entries.find? (fun e => e.userId == uid)).isSome then .error .alreadyJoined
    else
      let num := (max 1 (min 10 (pyOrInt numTickets 1))).toNat
      let initialStake := stake.getD (mkRat 1 10)
      if initialStake < mkRat 1 10 then .error .invalidStake
      else
        let stakeFloat := round2 initialStake
        let totalCost := round2 (qMul stakeFloat (num : ℚ))
        if bal < totalCost then .error .insufficientBalance
        else
          let s1 := setUserBalance (ensureUser s uid) uid (qSub bal totalCost)
          let eid := s.nextEntryId
          .ok { s1 with
            entries := s1.entries ++ [⟨eid, uid, EStatus.active, stake, some stakeFloat⟩],
            tickets := s1.tickets ++ (List.range num).map
              (fun i => ⟨eid, i + 1, stakeFloat, TkStatus.active⟩),
            nextEntryId := eid + 1 }

/-- Endpoint `POST /api/entry/{entry_id}/cash_out` (`cash_out`): credit
the sum of the entry's active ticket stakes (falling back to the legacy
single-stake columns when that sum is not positive) and mark the entry
`cashed_out`. -/
def cashOut (s : St) (entryId : Nat) : Except Err St :=
  match findEntry s entryId with
  | none => .error .entryNotFound
  | some e =>
    if e.status ≠ EStatus.active then .error .entryNotActive
    else
      let active := s.tickets.filter (fun t =>
        t.entryId == entryId && t.status == TkStatus.active)
      let amount0 := qSum (active.map (fun t => t.stakeAmount))
      let amount := if amount0 ≤ 0 then pyOrQ e.stakeAmount (pyOrQ e.stake 0) else amount0
      let s1 := setUserBalance s e.userId (qAdd (balanceOf s e.userId) amount)
      .ok { s1 with entries := s1.entries.map (fun x =>
        if x.id == entryId then { x with status := EStatus.cashedOut } else x) }

/-- The `amount` computed inside `cash_out` for entry row `e`: the sum of
the entry's active ticket stakes, falling back to the legacy
`stake_amount or stake or 0` chain when that sum is not positive. -/
def cashOutAmount (s : St) (entryId : Nat) (e : EntryR) : ℚ :=
  let active := s.tickets.filter (fun t =>
    t.entryId == entryId && t.status == TkStatus.active)
  let amount0 := qSum (active.map (fun t => t.stakeAmount))
  if amount0 ≤ 0 then pyOrQ e.stakeAmount (pyOrQ e.stake 0) else amount0

/-- Endpoint `POST /api/deposit` in `TON_TEST_MODE` (the live branch
defers crediting to external blockchain confirmation, out of scope):
round the amount to 2 decimals, reject below the 0.1 minimum, credit. -/
def deposit (s : St) (uid : Nat) (amount : ℚ) : Except Err St :=
  let amt := round2 amount
  if amt < mkRat 1 10 then .error .depositTooSmall
  else
    let s1 := ensureUser s uid
    .ok (setUserBalance s1 uid (qAdd (balanceOf s1 uid) amt))

/-- Admin endpoint `POST /api/entries` (`api_add_entry`) and the bot
command `/add_entry`: insert a bare active entry (no stake, no tickets)
for a user. -/
def addEntry (s : St) (uid : Nat) : St :=
  let s1 := ensureUser s uid
  { s1 with
    entries := s1.entries ++ [⟨s1.nextEntryId, uid, EStatus.active, none, none⟩],
    nextEntryId := s1.nextEntryId + 1 }

/-- Bot command `/add_teams`: insert the team names (abstracted to ids)
that are not present yet. -/
def addTeams (s : St) (ids : List Nat) : St :=
  { s with teams := ids.foldl (fun ts i => if ts.contains i then ts else ts ++ [i]) s.teams }

/-- Admin endpoint `POST /api/games/{game_id}/matches` (`api_add_matches`):
append fixtures for a round, skipping pairings that name an unknown
team; no goals are set. -/
def addMatches (s : St) (rnd : Nat) (pairs : List (Nat × Nat)) : St :=
  let valid := pairs.filter (fun p => s.teams.contains p.1 && s.teams.contains p.2)
  { s with fixtures := s.fixtures ++ valid.map (fun p => (⟨rnd, p.1, p.2, none, none⟩ : MatchR)) }

/-- Score-update phase of `sync_bundesliga_round`: overwrite the goals of
the round's fixtures with the values the feed reports, keeping the old
value where the feed reports none (external-id pairing abstracted to
positional pairing). -/
def updateGoals : List MatchR → Nat → List (Option Nat × Option Nat) → List MatchR
  | [], _, _ => []
  | m :: rest, rnd, gs =>
    if m.round == rnd then
      match gs with
      | [] => m :: updateGoals rest rnd []
      | g :: gtail =>
        { m with
          homeGoals := match g.1 with | some v => some v | none => m.homeGoals,
          awayGoals := match g.2 with | some v => some v | none => m.awayGoals }
        :: updateGoals rest rnd gtail
    else m :: updateGoals rest rnd gs

def setGoals (s : St) (rnd : Nat) (gs : List (Option Nat × Option Nat)) : St :=
  { s with fixtures := updateGoals s.fixtures rnd gs }

/-- Goal assignment of `run_round`'s simulation loop: every fixture of
the round gets the externally drawn goals (the source draws them from
`random.randint(0, 3)`; the draw enters here as the function `g` over
the fixture's position). -/
def assignGoals : List MatchR → Nat → (Nat → Nat × Nat) → Nat → List MatchR
  | [], _, _, _ => []
  | m :: rest, rnd, g, i =>
    if m.round == rnd then
      { m with homeGoals := some (g i).1, awayGoals := some (g i).2 }
        :: assignGoals rest rnd g (i + 1)
    else m :: assignGoals rest rnd g i

/-- Endpoint `POST /api/entry/{entry_id}/run_round` (`run_round`): when
the current round's fixtures have no goals yet, simulate goals and settle
the round via `_apply_round_results`; when goals are already present the
endpoint only reports results and changes nothing. -/
def runRound (s : St) (entryId : Nat) (g : Nat → Nat × Nat) : Except Err St :=
  match findEntry s entryId with
  | none => .error .entryNotFound
  | some e =>
    if e.status ≠ EStatus.active then .error .entryNotActive
    else if s.game.status ≠ GStatus.active then .error .gameNotActive
    else
      let rnd := s.game.currentRound
      if (s.selections.find? (fun sel =>
          sel.entryId == entryId && sel.round == rnd)).isNone then .error .noSelection
      else
        let ms := roundMatches s rnd
        if ms.isEmpty then .error .noMatches
        else if roundScored ms then .ok s
        else .ok (applyRoundResults { s with fixtures := assignGoals s.fixtures rnd g 0 } rnd)

/-- Python dict lookup for the parsed `/result` scores (later duplicate
names overwrite earlier ones). -/
def scoreOf (scores : List (Nat × Int)) (t : Nat) : Option Int :=
  ((scores.filter (fun p => p.1 == t)).getLast?).map (fun p => p.2)

/-- Bot command `/result <game_id> Team:goals, ...` (`cmd_result` in
`bot/handlers/admin.py`), the legacy settlement path: an active entry
whose first Pick of the current round names a team with a reported score
of 0 is put `out` (tickets are not consulted), then the round counter is
advanced, capped at `rounds_total`. Team names are abstracted to ids;
names absent from the teams table are dropped from the score map. -/
def cmdResult (s : St) (scores : List (Nat × Int)) : St :=
  if scores.isEmpty then s
  else if s.game.status ≠ GStatus.active then s
  else
    let idScores := scores.filter (fun p => s.teams.contains p.1)
    let rnd := s.game.currentRound
    let ens := s.entries.map (fun e =>
      if e.status = EStatus.active then
        match s.selections.find? (fun sel => sel.entryId == e.id && sel.round == rnd) with
        | none => e
        | some sel =>
          if scoreOf idScores sel.team1Id == some 0
              || scoreOf idScores sel.team2Id == some 0 then
            { e with status := EStatus.out }
          else e
      else e)
    let g :=
      if s.game.roundsTotal ≤ s.game.currentRound then
        { s.game with status := GStatus.finished, currentRound := s.game.roundsTotal }
      else { s.game with currentRound := s.game.currentRound + 1 }
    { s with entries := ens, game := g }

/-- External fixture row consumed by `fetch_bundesliga_round` (team
names abstracted to ids, scores optional). -/
structure ExtMatch where
  homeTeamId : Nat
  awayTeamId : Nat
  homeGoals : Option Nat
  awayGoals : Option Nat
deriving DecidableEq, Repr

/-- Admin endpoint `POST /api/admin/fetch_bundesliga_round`
(`fetch_bundesliga_round`): for the game titled Bundesliga, set
`current_round` to the externally reported matchday, force the status
back to `active`, create the missing teams, and replace that round's
fixtures with the feed's rows. In the single-game model the branch that
would create a brand-new game (when no game carries the title) is not
taken. -/
def fetchBundesligaRound (s : St) (matchday : Nat) (ext : List ExtMatch) : St :=
  if s.game.title ≠ "Bundesliga" then s
  else
    let g := { s.game with currentRound := matchday, status := GStatus.active }
    let teams := ext.foldl (fun ts m =>
      let ts1 := if ts.contains m.homeTeamId then ts else ts ++ [m.homeTeamId]
      if ts1.contains m.awayTeamId then ts1 else ts1 ++ [m.awayTeamId]) s.teams
    let fixtures := (s.fixtures.filter (fun m => !(m.round == matchday))) ++
      ext.map (fun m => (⟨matchday, m.homeTeamId, m.awayTeamId, m.homeGoals, m.awayGoals⟩ : MatchR))
    { s with game := g, teams := teams, fixtures := fixtures }

/-- Freshly created game (`api_create_game` / `/create_game`:
`rounds_total=10, current_round=1, status=active`) over an empty ledger
and the seeded team pool (`seed_teams` in `database/__init__.py`). -/
def initSt (title : String) (seedTeams : List Nat) : St :=
  { game := ⟨title, 10, 1, GStatus.active⟩, teams := seedTeams, users := [],
    entries := [], tickets := [], selections := [], fixtures := [], nextEntryId := 1 }

/-- The state-mutating operations of the engine and its callers, except
`fetch_bundesliga_round` (kept separate so that its effect on the round
counter can be isolated). `settle` is `_apply_round_results`, which its
callers invoke with the game's current round; the argument is kept
general. `sync_bundesliga_round` is `setGoals` followed, once the feed
reports every fixture finished, by `settle`. -/
inductive CoreOp
  | deposit (uid : Nat) (amount : ℚ)
  | join (uid : Nat) (stake : Option ℚ) (numTickets : Option Int)
  | addEntry (uid : Nat)
  | addTeams (ids : List Nat)
  | addMatches (rnd : Nat) (pairs : List (Nat × Nat))
  | submitTeams (entryId t1 t2 : Nat) (tidx : Option Int)
  | submitSel (entryId t1 t2 : Nat)
  | setGoals (rnd : Nat) (gs : List (Option Nat × Option Nat))
  | runRound (entryId : Nat) (g : Nat → Nat × Nat)
  | settle (rnd : Nat)
  | cashOut (entryId : Nat)
  | cmdResult (scores : List (Nat × Int))

def applyCore (op : CoreOp) (s : St) : St :=
  match op with
  | .deposit uid amount => stOf s (deposit s uid amount)
  | .join uid stake n => stOf s (joinGame s uid stake n)
  | .addEntry uid => addEntry s uid
  | .addTeams ids => addTeams s ids
  | .addMatches rnd pairs => addMatches s rnd pairs
  | .submitTeams eid t1 t2 tidx => stOf s (submitTwoTeams s eid t1 t2 tidx)
  | .submitSel eid t1 t2 => stOf s (submitSelection s eid t1 t2)
  | .setGoals rnd gs => setGoals s rnd gs
  | .runRound eid g => stOf s (runRound s eid g)
  | .settle rnd => applyRoundResults s rnd
  | .cashOut eid => stOf s (cashOut s eid)
  | .cmdResult scores => cmdResult s scores

def runOps (s : St) (ops : List CoreOp) : St :=
  ops.foldl (fun s1 op => applyCore op s1) s

/-- Claim C3's invariant: two Picks of the same ticket made for distinct
rounds never share a team id. -/
def PickTeamsDisjoint (s : St) : Prop :=
  ∀ a ∈ s.selections, ∀ b ∈ s.selections,
    a.entryId = b.entryId → a.ticketIndex = b.ticketIndex → a.round ≠ b.round →
      a.team1Id ≠ b.team1Id ∧ a.team1Id ≠ b.team2Id ∧
      a.team2Id ≠ b.team1Id ∧ a.team2Id ≠ b.team2Id

/-- Claim C5's invariant: an entry marked `out` has no active ticket. -/
def EntryOutNoActiveTicket (s : St) : Prop :=
  ∀ e ∈ s.entries, e.status = EStatus.out →
    ∀ t ∈ s.tickets, t.entryId = e.id → t.status ≠ TkStatus.active

/-- Claim C8's invariant: each ticket has at most one Pick per round. -/
def AtMostOnePickPerRound (s : St) : Prop :=
  ∀ sel ∈ s.selections,
    (s.selections.filter (fun x => x.entryId == sel.entryId &&
      x.ticketIndex == sel.ticketIndex && x.round == sel.round)).length ≤ 1

instance (s : St) : Decidable (PickTeamsDisjoint s) := by
  unfold PickTeamsDisjoint; infer_instance

instance (s : St) : Decidable (EntryOutNoActiveTicket s) := by
  unfold EntryOutNoActiveTicket; infer_instance

instance (s : St) : Decidable (AtMostOnePickPerRound s) := by
  unfold AtMostOnePickPerRound; infer_instance

/-- Selections of one ticket for one round (the rows that the settlement
loop of `_apply_round_results` applies to this ticket, and the rows that
`submit_two_teams` deletes before inserting a replacement). -/
def ticketSelections (s : St) (rnd eid tidx : Nat) : List SelectionR :=
  s.selections.filter (fun x => x.round == rnd && x.entryId == eid && x.ticketIndex == tidx)

/-- The ticket `(eid, tidx)` passes round `rnd` in state `s`: the round
has its scores, the ticket has exactly one Pick for the round, both
picked teams are in the scored set, and the ticket is (found and)
active. -/
def PassesRoundWith (s : St) (rnd eid tidx t1 t2 : Nat) : Prop :=
  roundScored (roundMatches s rnd) = true ∧
  ticketSelections s rnd eid tidx = [⟨eid, tidx, rnd, t1, t2⟩] ∧
  (scoredTeamIds (roundMatches s rnd)).contains t1 = true ∧
  (scoredTeamIds (roundMatches s rnd)).contains t2 = true ∧
  (findTicket s.tickets eid tidx).map (fun t => t.status) = some TkStatus.active

instance (s : St) (rnd eid tidx t1 t2 : Nat) :
    Decidable (PassesRoundWith s rnd eid tidx t1 t2) := by
  unfold PassesRoundWith; infer_instance

/-- A run of consecutive settled rounds, each passed by the ticket
`(eid, tidx)` with the recorded two-team pick; the state evolves by
`applyRoundResults` at every step. -/
inductive PassesAll (eid tidx : Nat) : St → List (Nat × Nat × Nat) → Prop
  | nil (s : St) : PassesAll eid tidx s []
  | cons (s : St) (r t1 t2 : Nat) (tr : List (Nat × Nat × Nat)) :
      PassesRoundWith s r eid tidx t1 t2 →
      PassesAll eid tidx (applyRoundResults s r) tr →
      PassesAll eid tidx s ((r, t1, t2) :: tr)

/-- Settling a sequence of rounds in order. -/
def settleRounds (s : St) (rs : List Nat) : St := rs.foldl applyRoundResults s

/-- Every ticket present before an operation is still found under its key
afterwards, with an unchanged stake. -/
def StakesPreserved (s s1 : St) : Prop :=
  ∀ eid tidx tk, findTicket s.tickets eid tidx = some tk →
    ∃ tk1, findTicket s1.tickets eid tidx = some tk1 ∧ tk1.stakeAmount = tk.stakeAmount

/-- Inductive invariant for the core operations: pick-team disjointness
across rounds, every Pick's round bounded by the game's round counter,
and the round counter bounded by `rounds_total` while the game is
active. -/
def CoreInv (s : St) : Prop :=
  PickTeamsDisjoint s ∧
  (∀ sel ∈ s.selections, sel.round ≤ s.game.currentRound) ∧
  (s.game.status = GStatus.active → s.game.currentRound ≤ s.game.roundsTotal)

/-- Settled state for the idempotence experiment: one round-1 fixture
with final score 1:1 already recorded, one active ticket of stake 1 whose
round-1 pick backs both fixture teams. -/
def exSettleSt : St :=
  { game := ⟨"G", 5, 1, GStatus.active⟩, teams := [10, 11], users := [⟨7, 0⟩],
    entries := [⟨1, 7, EStatus.active, none, some 1⟩],
    tickets := [⟨1, 1, 1, TkStatus.active⟩],
    selections := [⟨1, 1, 1, 10, 11⟩],
    fixtures := [⟨1, 10, 11, some 1, some 1⟩], nextEntryId := 2 }

/-- The specification's scored-set scenario: fixtures A vs B 2:0 and
C vs D 0:0 (teams 10, 11, 12, 13), with one active ticket whose round-1
pick is (A, C) = (10, 12). -/
def exScoredSt : St :=
  { game := ⟨"G", 5, 1, GStatus.active⟩, teams := [10, 11, 12, 13], users := [⟨7, 0⟩],
    entries := [⟨1, 7, EStatus.active, none, some 1⟩],
    tickets := [⟨1, 1, 1, TkStatus.active⟩],
    selections := [⟨1, 1, 1, 10, 12⟩],
    fixtures := [⟨1, 10, 11, some 2, some 0⟩, ⟨1, 12, 13, some 0, some 0⟩],
    nextEntryId := 2 }

/-- Reachable state violating pick-team disjointness: a Bundesliga game
is fetched at matchday 2, the user joins and picks teams (10, 11) for
round 2; a later fetch resets the round counter back to matchday 1, after
which the submission validation (which only checks rounds strictly below
the current one) accepts team 10 again for round 1. -/
def disjointCexSt : St :=
  let s1 := fetchBundesligaRound (initSt "Bundesliga" []) 2
    [⟨10, 11, none, none⟩, ⟨12, 13, none, none⟩]
  let s2 := runOps s1
    [.deposit 7 1, .join 7 (some (mkRat 1 10)) (some 1), .submitTeams 1 10 11 none]
  let s3 := fetchBundesligaRound s2 1 [⟨10, 12, none, none⟩, ⟨11, 13, none, none⟩]
  applyCore (.submitTeams 1 10 12 none) s3

/-- Reachable Bundesliga game sitting at round 2 (fetched at matchday 2). -/
def roundTwoSt : St :=
  fetchBundesligaRound (initSt "Bundesliga" []) 2 [⟨10, 11, none, none⟩]

/-- Reachable state in which the legacy `/result` command has put an
entry `out` while its ticket is still active: the user joins with one
ticket, picks (10, 12) for round 1, and the admin reports team 12 scoring
0 goals. -/
def entryOutCexSt : St :=
  runOps (initSt "G" [10, 11, 12, 13])
    [.addMatches 1 [(10, 11), (12, 13)], .deposit 7 1, .join 7 (some (mkRat 1 10)) (some 1),
     .submitTeams 1 10 12 none, .cmdResult [(10, 1), (12, 0)]]

/-- Reachable state with two Picks of the same ticket for the same round:
the legacy `/api/selection` endpoint inserts without replacing, so two
calls in the same round stack two Selections for ticket 1. -/
def doublePickCexSt : St :=
  runOps (initSt "G" [10, 11, 12, 13])
    [.deposit 7 1, .join 7 (some (mkRat 1 10)) (some 1), .submitSel 1 10 11, .submitSel 1 12 13]

/-- Two-round compounding run: rounds 1 and 2 each have one settled
fixture whose both teams scored, and the ticket's picks back exactly
those teams; its stake starts at 4. -/
def compoundSt : St :=
  { game := ⟨"G", 5, 1, GStatus.active⟩, teams := [10, 11, 12, 13], users := [⟨7, 0⟩],
    entries := [⟨1, 7, EStatus.active, none, some 4⟩],
    tickets := [⟨1, 1, 4, TkStatus.active⟩],
    selections := [⟨1, 1, 1, 10, 11⟩, ⟨1, 1, 2, 12, 13⟩],
    fixtures := [⟨1, 10, 11, some 1, some 2⟩, ⟨2, 12, 13, some 3, some 1⟩],
    nextEntryId := 2 }

/-- Cash-out scenario of the specification: an active entry with two
active tickets of stakes 10 and 15, owner's balance 0. -/
def cashOutSt : St :=
  { game := ⟨"G", 5, 3, GStatus.active⟩, teams := [10, 11], users := [⟨7, 0⟩],
    entries := [⟨1, 7, EStatus.active, none, some 10⟩],
    tickets := [⟨1, 1, 10, TkStatus.active⟩, ⟨1, 2, 15, TkStatus.active⟩],
    selections := [], fixtures := [], nextEntryId := 2 }

/-- Join scenario of the specification: a fresh user with balance 0.25
(= 1/4) facing an active game. -/
def joinSt : St :=
  { game := ⟨"G", 10, 1, GStatus.active⟩, teams := [10, 11], users := [⟨7, mkRat 1 4⟩],
    entries := [], tickets := [], selections := [], fixtures := [], nextEntryId := 1 }

/-- Join scenario for ticket clamping: a user with balance 5 requesting
15 tickets of stake 0.2. -/
def joinManySt : St :=
  { game := ⟨"G", 10, 1, GStatus.active⟩, teams := [10, 11], users := [⟨7, 5⟩],
    entries := [], tickets := [], selections := [], fixtures := [], nextEntryId := 1 }

/-- No ticket of the given entry is still active. -/
def NoActiveFor (tks : List TicketR) (eid : Nat) : Prop :=
  ∀ t ∈ tks, t.entryId = eid → t.status ≠ TkStatus.active

theorem qMul_eq (a b : ℚ) : qMul a b = a * b := by
  rw [qMul, Rat.mkRat_eq_divInt]
  conv_rhs => rw [← Rat.num_divInt_den a, ← Rat.num_divInt_den b]
  rw [Rat.divInt_mul_divInt']
  push_cast
  rfl

theorem qAdd_eq (a b : ℚ) : qAdd a b = a + b := by
  rw [qAdd, Rat.mkRat_eq_divInt]
  conv_rhs => rw [← Rat.num_divInt_den a, ← Rat.num_divInt_den b]
  rw [Rat.divInt_add_divInt _ _ (by exact_mod_cast a.den_nz) (by exact_mod_cast b.den_nz)]
  push_cast
  rfl

theorem qSub_eq (a b : ℚ) : qSub a b = a - b := by
  rw [qSub, qAdd_eq, sub_eq_add_neg]

theorem qSum_go (l : List ℚ) : ∀ a : ℚ, l.foldl qAdd a = a + l.sum := by
  induction l with
  | nil => intro a; simp
  | cons b t ih => intro a; simp [List.foldl_cons, ih, qAdd_eq, add_assoc]

theorem qSum_eq (l : List ℚ) : qSum l = l.sum := by
  rw [qSum, qSum_go, zero_add]

theorem mkRatQ (n : ℤ) (d : ℕ) : mkRat n d = (n : ℚ) / d := by
  rw [Rat.mkRat_eq_divInt, Rat.divInt_eq_div]
  norm_num

theorem floorQ_eq (q : ℚ) : floorQ q = Int.floor q := by
  rw [Rat.floor_def, floorQ, Int.fdiv_eq_ediv _ (Int.natCast_nonneg _)]

theorem roundHalfUp_eq (q : ℚ) : roundHalfUp q = round q := by
  rw [roundHalfUp, floorQ_eq, qAdd_eq, round_eq, mkRatQ]
  norm_num

theorem round2_eq (q : ℚ) : round2 q = (round (q * 100) : ℤ) / 100 := by
  rw [round2, mkRatQ, roundHalfUp_eq, qMul_eq]
  norm_num

theorem round6_eq (q : ℚ) : round6 q = (round (q * 1000000) : ℤ) / 1000000 := by
  rw [round6, mkRatQ, roundHalfUp_eq, qMul_eq]
  norm_num

theorem mem_collectTeamIds (l : List SelectionR) (t : Nat) :
    t ∈ collectTeamIds l ↔ ∃ sel ∈ l, t = sel.team1Id ∨ t = sel.team2Id := by
  induction l with
  | nil => simp [collectTeamIds]
  | cons sel rest ih =>
    simp only [collectTeamIds, List.mem_cons, ih]
    constructor
    · rintro (h | h | ⟨x, hx, hor⟩)
      · exact ⟨sel, Or.inl rfl, Or.inl h⟩
      · exact ⟨sel, Or.inl rfl, Or.inr h⟩
      · exact ⟨x, Or.inr hx, hor⟩
    · rintro ⟨x, (rfl | hx), hor⟩
      · rcases hor with h | h
        · exact Or.inl h
        · exact Or.inr (Or.inl h)
      · exact Or.inr (Or.inr ⟨x, hx, hor⟩)

theorem mem_scoredTeamIds (ms : List MatchR) (t : Nat) :
    t ∈ scoredTeamIds ms ↔
      ∃ m ∈ ms, (m.homeTeamId = t ∧ 1 ≤ m.homeGoals.getD 0) ∨
        (m.awayTeamId = t ∧ 1 ≤ m.awayGoals.getD 0) := by
  induction ms with
  | nil => simp [scoredTeamIds]
  | cons m rest ih =>
    simp only [scoredTeamIds, List.mem_append, List.mem_cons, ih]
    by_cases h1 : 1 ≤ m.homeGoals.getD 0 <;> by_cases h2 : 1 ≤ m.awayGoals.getD 0 <;>
      simp [h1, h2] <;> aesop

theorem find?_updateFirstTicket (tks : List TicketR) (e1 i1 : Nat) (f : TicketR → TicketR)
    (hf : ∀ t, (f t).entryId = t.entryId ∧ (f t).ticketIndex = t.ticketIndex)
    (e2 i2 : Nat) :
    findTicket (updateFirstTicket tks e1 i1 f) e2 i2 =
      if e1 = e2 ∧ i1 = i2 then (findTicket tks e2 i2).map f
      else findTicket tks e2 i2 := by
  induction tks with
  | nil =>
    simp only [updateFirstTicket, findTicket, List.find?_nil]
    split <;> rfl
  | cons t rest ih =>
    simp only [updateFirstTicket, findTicket] at ih ⊢
    by_cases hkey : (t.entryId == e1 && t.ticketIndex == i1) = true
    · rw [if_pos hkey]
      have hke : t.entryId = e1 ∧ t.ticketIndex = i1 := by
        simpa [Bool.and_eq_true, beq_iff_eq] using hkey
      by_cases hsame : e1 = e2 ∧ i1 = i2
      · have hpt : (t.entryId == e2 && t.ticketIndex == i2) = true := by
          simp [hke.1, hke.2, hsame.1, hsame.2]
        have hpf : ((f t).entryId == e2 && (f t).ticketIndex == i2) = true := by
          simp [(hf t).1, (hf t).2, hke.1, hke.2, hsame.1, hsame.2]
        rw [if_pos hsame]
        simp only [List.find?, hpt, hpf]
        rfl
      · have hne2 : ¬ (t.entryId = e2 ∧ t.ticketIndex = i2) := by
          rw [hke.1, hke.2]; exact hsame
        have hpt : (t.entryId == e2 && t.ticketIndex == i2) = false := by
          rw [Bool.eq_false_iff]
          simp only [ne_eq, Bool.and_eq_true, beq_iff_eq]
          exact hne2
        have hpf : ((f t).entryId == e2 && (f t).ticketIndex == i2) = false := by
          rw [Bool.eq_false_iff]
          simp only [ne_eq, Bool.and_eq_true, beq_iff_eq, (hf t).1, (hf t).2]
          exact hne2
        rw [if_neg hsame]
        simp only [List.find?, hpt, hpf]
    · rw [if_neg hkey]
      by_cases hpt : (t.entryId == e2 && t.ticketIndex == i2) = true
      · have hnotsame : ¬ (e1 = e2 ∧ i1 = i2) := by
          rintro ⟨rfl, rfl⟩
          exact hkey hpt
        rw [if_neg hnotsame]
        simp only [List.find?, hpt]
      · have hptf : (t.entryId == e2 && t.ticketIndex == i2) = false :=
          Bool.eq_false_iff.mpr hpt
        simp only [List.find?, hptf, ih]

theorem mem_updateFirstTicket {t' : TicketR} {tks : List TicketR} {e1 i1 : Nat}
    {f : TicketR → TicketR} (h : t' ∈ updateFirstTicket tks e1 i1 f) :
    t' ∈ tks ∨ ∃ t ∈ tks, t' = f t := by
  induction tks with
  | nil => simp only [updateFirstTicket] at h; cases h
  | cons t rest ih =>
    simp only [updateFirstTicket] at h
    by_cases hkey : (t.entryId == e1 && t.ticketIndex == i1) = true
    · rw [if_pos hkey] at h
      rcases List.mem_cons.mp h with h1 | h1
      · exact Or.inr ⟨t, List.mem_cons_self .., h1⟩
      · exact Or.inl (List.mem_cons_of_mem _ h1)
    · rw [if_neg hkey] at h
      rcases List.mem_cons.mp h with h1 | h1
      · exact Or.inl (h1 ▸ List.mem_cons_self ..)
      · rcases ih h1 with h2 | ⟨x, hx, hfx⟩
        · exact Or.inl (List.mem_cons_of_mem _ h2)
        · exact Or.inr ⟨x, List.mem_cons_of_mem _ hx, hfx⟩

theorem processSelection_other (scored : List Nat) (acc : List TicketR × List EntryR)
    (sel : SelectionR) (eid tidx : Nat)
    (hne : ¬ (sel.entryId = eid ∧ sel.ticketIndex = tidx)) :
    findTicket (processSelection scored acc sel).1 eid tidx = findTicket acc.1 eid tidx := by
  unfold processSelection
  split
  · rfl
  · split
    · rfl
    · split
      · simp only []
        rw [find?_updateFirstTicket acc.1 sel.entryId sel.ticketIndex
          (fun t => { t with stakeAmount := qMul t.stakeAmount (mkRat 3 2) })
          (fun t => ⟨rfl, rfl⟩) eid tidx, if_neg hne]
      · simp only []
        split <;>
          · simp only []
            rw [find?_updateFirstTicket acc.1 sel.entryId sel.ticketIndex
              (fun t => { t with status := TkStatus.out })
              (fun t => ⟨rfl, rfl⟩) eid tidx, if_neg hne]

theorem foldProcess_other (scored : List Nat) (rows : List SelectionR) (eid tidx : Nat)
    (hrows : ∀ x ∈ rows, ¬ (x.entryId = eid ∧ x.ticketIndex = tidx)) :
    ∀ acc : List TicketR × List EntryR,
      findTicket (rows.foldl (processSelection scored) acc).1 eid tidx =
        findTicket acc.1 eid tidx := by
  induction rows with
  | nil => intro acc; rfl
  | cons x rs ih =>
    intro acc
    rw [List.foldl_cons,
      ih (fun y hy => hrows y (List.mem_cons_of_mem _ hy)),
      processSelection_other _ _ _ _ _ (hrows x (List.mem_cons_self ..))]

theorem processSelection_self (scored : List Nat) (acc : List TicketR × List EntryR)
    (sel : SelectionR) (tk : TicketR)
    (hft : findTicket acc.1 sel.entryId sel.ticketIndex = some tk)
    (hact : tk.status = TkStatus.active) :
    findTicket (processSelection scored acc sel).1 sel.entryId sel.ticketIndex =
      some (if scored.contains sel.team1Id && scored.contains sel.team2Id
        then { tk with stakeAmount := qMul tk.stakeAmount (mkRat 3 2) }
        else { tk with status := TkStatus.out }) := by
  unfold processSelection
  split
  · simp_all
  · rename_i tk2 hft2
    rw [hft] at hft2
    obtain rfl : tk2 = tk := (Option.some.injEq _ _ ▸ hft2).symm
    split
    · simp_all
    · split
      · simp only []
        rw [find?_updateFirstTicket acc.1 sel.entryId sel.ticketIndex
          (fun t => { t with stakeAmount := qMul t.stakeAmount (mkRat 3 2) })
          (fun t => ⟨rfl, rfl⟩) sel.entryId sel.ticketIndex,
          if_pos ⟨rfl, rfl⟩, hft]
        rfl
      · simp only []
        split <;>
          · simp only []
            rw [find?_updateFirstTicket acc.1 sel.entryId sel.ticketIndex
              (fun t => { t with status := TkStatus.out })
              (fun t => ⟨rfl, rfl⟩) sel.entryId sel.ticketIndex,
              if_pos ⟨rfl, rfl⟩, hft]
            rfl

theorem foldProcess_unique (scored : List Nat) (rows : List SelectionR) (eid tidx : Nat)
    (sel : SelectionR)
    (hfilter : rows.filter (fun x => x.entryId == eid && x.ticketIndex == tidx) = [sel]) :
    ∀ (acc : List TicketR × List EntryR) (tk : TicketR),
      findTicket acc.1 eid tidx = some tk → tk.status = TkStatus.active →
      findTicket (rows.foldl (processSelection scored) acc).1 eid tidx =
        some (if scored.contains sel.team1Id && scored.contains sel.team2Id
          then { tk with stakeAmount := qMul tk.stakeAmount (mkRat 3 2) }
          else { tk with status := TkStatus.out }) := by
  induction rows with
  | nil => simp at hfilter
  | cons x rs ih =>
    intro acc tk hft hact
    by_cases hx : (x.entryId == eid && x.ticketIndex == tidx) = true
    · rw [List.filter_cons, if_pos hx] at hfilter
      have hxsel : x = sel := (List.cons_eq_cons.mp hfilter).1
      have hrs : rs.filter (fun y => y.entryId == eid && y.ticketIndex == tidx) = [] :=
        (List.cons_eq_cons.mp hfilter).2
      have hkeys : x.entryId = eid ∧ x.ticketIndex = tidx := by
        simpa [Bool.and_eq_true, beq_iff_eq] using hx
      rw [List.foldl_cons,
        foldProcess_other scored rs eid tidx
          (by
            intro y hy hcontra
            have hmem : y ∈ rs.filter (fun y => y.entryId == eid && y.ticketIndex == tidx) := by
              rw [List.mem_filter]
              exact ⟨hy, by simp [hcontra.1, hcontra.2]⟩
            rw [hrs] at hmem
            cases hmem)]
      subst hxsel
      rw [← hkeys.1, ← hkeys.2] at hft ⊢
      exact processSelection_self scored acc x tk hft hact
    · have hxne : ¬ (x.entryId = eid ∧ x.ticketIndex = tidx) := by
        intro hc
        exact hx (by simp [hc.1, hc.2])
      rw [List.filter_cons, if_neg hx] at hfilter
      rw [List.foldl_cons]
      exact ih hfilter _ tk
        ((processSelection_other scored acc x eid tidx hxne).trans hft) hact

theorem noActiveFor_updateFirstTicket {tks : List TicketR} {e1 i1 eid : Nat}
    {f : TicketR → TicketR}
    (hf : ∀ t, (f t).entryId = t.entryId ∧
      ((f t).status = t.status ∨ (f t).status = TkStatus.out))
    (h : NoActiveFor tks eid) : NoActiveFor (updateFirstTicket tks e1 i1 f) eid := by
  intro t' ht' he
  rcases mem_updateFirstTicket ht' with h1 | ⟨t, ht, rfl⟩
  · exact h t' h1 he
  · rcases (hf t).2 with hs | hs
    · rw [hs]
      exact h t ht ((hf t).1 ▸ he)
    · rw [hs]
      simp

theorem noActiveFor_processSelection {scored : List Nat} {acc : List TicketR × List EntryR}
    {sel : SelectionR} {eid : Nat}
    (h : NoActiveFor acc.1 eid) : NoActiveFor (processSelection scored acc sel).1 eid := by
  unfold processSelection
  split
  · exact h
  · split
    · exact h
    · split
      · simp only []
        exact noActiveFor_updateFirstTicket (fun t => ⟨rfl, Or.inl rfl⟩) h
      · simp only []
        split <;>
          · simp only []
            exact noActiveFor_updateFirstTicket (fun t => ⟨rfl, Or.inr rfl⟩) h

theorem processSelection_entries (scored : List Nat) (acc : List TicketR × List EntryR)
    (sel : SelectionR) :
    (processSelection scored acc sel).2 = acc.2 ∨
    ((processSelection scored acc sel).2 = setEntryOut acc.2 sel.entryId ∧
      NoActiveFor (processSelection scored acc sel).1 sel.entryId) := by
  unfold processSelection
  split
  · exact Or.inl rfl
  · split
    · exact Or.inl rfl
    · split
      · exact Or.inl rfl
      · simp only []
        split
        · exact Or.inl rfl
        · rename_i hnone
          refine Or.inr ⟨rfl, ?_⟩
          simp only []
          have hnone2 : List.find? (fun t =>
              t.entryId == sel.entryId && t.status == TkStatus.active)
              (updateFirstTicket acc.1 sel.entryId sel.ticketIndex
                (fun t => { t with status := TkStatus.out })) = none := by
            cases hcase : List.find? (fun t =>
                t.entryId == sel.entryId && t.status == TkStatus.active)
                (updateFirstTicket acc.1 sel.entryId sel.ticketIndex
                  (fun t => { t with status := TkStatus.out })) with
            | none => rfl
            | some t =>
              rw [hcase] at hnone
              simp at hnone
          intro t ht hteid
          have hall := List.find?_eq_none.mp hnone2 t ht
          simp only [Bool.and_eq_true, beq_iff_eq, not_and] at hall
          exact fun hc => (hall hteid) (by rw [hc])

theorem outInv_processSelection (scored : List Nat) (orig : List EntryR)
    (acc : List TicketR × List EntryR) (sel : SelectionR)
    (h : ∀ e1 ∈ acc.2, e1.status = EStatus.out →
      (∃ e0 ∈ orig, e0.id = e1.id ∧ e0.status = EStatus.out) ∨ NoActiveFor acc.1 e1.id) :
    ∀ e1 ∈ (processSelection scored acc sel).2, e1.status = EStatus.out →
      (∃ e0 ∈ orig, e0.id = e1.id ∧ e0.status = EStatus.out) ∨
      NoActiveFor (processSelection scored acc sel).1 e1.id := by
  have hlift : ∀ e1 ∈ acc.2, e1.status = EStatus.out →
      (∃ e0 ∈ orig, e0.id = e1.id ∧ e0.status = EStatus.out) ∨
      NoActiveFor (processSelection scored acc sel).1 e1.id := by
    intro e1 he1 hout
    rcases h e1 he1 hout with h1 | h1
    · exact Or.inl h1
    · exact Or.inr (noActiveFor_processSelection h1)
  rcases processSelection_entries scored acc sel with hens | ⟨hens, hnoact⟩
  · rw [hens]
    exact hlift
  · rw [hens]
    intro e1 he1 hout
    simp only [setEntryOut, List.mem_map] at he1
    obtain ⟨e0, he0, heq⟩ := he1
    by_cases hid : (e0.id == sel.entryId) = true
    · rw [if_pos hid] at heq
      subst heq
      right
      have hid2 : e0.id = sel.entryId := by simpa using hid
      simpa [hid2] using hnoact
    · rw [if_neg hid] at heq
      subst heq
      exact hlift e0 he0 hout

theorem outInv_foldProcess (scored : List Nat) (rows : List SelectionR) (orig : List EntryR) :
    ∀ acc : List TicketR × List EntryR,
      (∀ e1 ∈ acc.2, e1.status = EStatus.out →
        (∃ e0 ∈ orig, e0.id = e1.id ∧ e0.status = EStatus.out) ∨ NoActiveFor acc.1 e1.id) →
      ∀ e1 ∈ (rows.foldl (processSelection scored) acc).2, e1.status = EStatus.out →
        (∃ e0 ∈ orig, e0.id = e1.id ∧ e0.status = EStatus.out) ∨
        NoActiveFor (rows.foldl (processSelection scored) acc).1 e1.id := by
  induction rows with
  | nil => intro acc h; exact h
  | cons x rs ih =>
    intro acc h
    rw [List.foldl_cons]
    exact ih _ (outInv_processSelection scored orig acc x h)

theorem ensureUser_fields (s : St) (uid : Nat) :
    (ensureUser s uid).game = s.game ∧ (ensureUser s uid).selections = s.selections ∧
    (ensureUser s uid).tickets = s.tickets ∧ (ensureUser s uid).entries = s.entries ∧
    (ensureUser s uid).nextEntryId = s.nextEntryId ∧ (ensureUser s uid).fixtures = s.fixtures := by
  unfold ensureUser
  split <;> exact ⟨rfl, rfl, rfl, rfl, rfl, rfl⟩

theorem deposit_shape (s : St) (uid : Nat) (amt : ℚ) :
    (stOf s (deposit s uid amt)).game = s.game ∧
    (stOf s (deposit s uid amt)).selections = s.selections ∧
    (stOf s (deposit s uid amt)).tickets = s.tickets ∧
    (stOf s (deposit s uid amt)).entries = s.entries := by
  simp only [deposit]
  by_cases hc : round2 amt < mkRat 1 10
  · rw [if_pos hc]
    exact ⟨rfl, rfl, rfl, rfl⟩
  · rw [if_neg hc]
    obtain ⟨h1, h2, h3, h4, h5, h6⟩ := ensureUser_fields s uid
    exact ⟨h1, h2, h3, h4⟩

theorem joinGame_ok {s : St} {uid : Nat} {st : Option ℚ} {n : Option Int} {s1 : St}
    (h : joinGame s uid st n = .ok s1) :
    s1.game = s.game ∧ s1.selections = s.selections ∧ s1.fixtures = s.fixtures ∧
    (∃ tks2, s1.tickets = s.tickets ++ tks2) ∧ (∃ e2, s1.entries = s.entries ++ [e2]) := by
  simp only [joinGame] at h
  by_cases hc1 : s.game.status ≠ GStatus.active
  · rw [if_pos hc1] at h; cases h
  rw [if_neg hc1] at h
  by_cases hc2 : balanceOf s uid ≤ 0
  · rw [if_pos hc2] at h; cases h
  rw [if_neg hc2] at h
  by_cases hc3 : (s.entries.find? (fun e => e.userId == uid)).isSome = true
  · rw [if_pos hc3] at h; cases h
  rw [if_neg hc3] at h
  by_cases hc4 : st.getD (mkRat 1 10) < mkRat 1 10
  · rw [if_pos hc4] at h; cases h
  rw [if_neg hc4] at h
  by_cases hc5 : balanceOf s uid <
      round2 (qMul (round2 (st.getD (mkRat 1 10)))
        (((max 1 (min 10 (pyOrInt n 1))).toNat : ℚ)))
  · rw [if_pos hc5] at h; cases h
  rw [if_neg hc5] at h
  injection h with h
  subst h
  obtain ⟨h1, h2, h3, h4, h5, h6⟩ := ensureUser_fields s uid
  refine ⟨h1, h2, h6, ?_, ?_⟩
  · simp only [setUserBalance, h3]
    exact ⟨_, rfl⟩
  · simp only [setUserBalance, h4]
    exact ⟨_, rfl⟩

theorem submitTwoTeams_ok {s : St} {eid t1 t2 : Nat} {tb : Option Int} {s1 : St}
    (h : submitTwoTeams s eid t1 t2 tb = .ok s1) :
    s1.game = s.game ∧ s1.tickets = s.tickets ∧ s1.fixtures = s.fixtures ∧
    s1.entries = s.entries ∧
    (usedTeamIds s eid (max 1 (pyOrInt tb 1)).toNat s.game.currentRound).contains t1 = false ∧
    (usedTeamIds s eid (max 1 (pyOrInt tb 1)).toNat s.game.currentRound).contains t2 = false ∧
    t1 ≠ t2 ∧
    s1.selections = (s.selections.filter (fun sel =>
      !(sel.entryId == eid && sel.ticketIndex == (max 1 (pyOrInt tb 1)).toNat &&
        sel.round == s.game.currentRound))) ++
      [⟨eid, (max 1 (pyOrInt tb 1)).toNat, s.game.currentRound, t1, t2⟩] := by
  simp only [submitTwoTeams] at h
  cases hfe : findEntry s eid with
  | none => rw [hfe] at h; cases h
  | some e =>
    rw [hfe] at h
    simp only [] at h
    by_cases hc1 : e.status ≠ EStatus.active
    · rw [if_pos hc1] at h; cases h
    rw [if_neg hc1] at h
    by_cases hc2 : s.game.status ≠ GStatus.active
    · rw [if_pos hc2] at h; cases h
    rw [if_neg hc2] at h
    cases hft : findTicket s.tickets eid (max 1 (pyOrInt tb 1)).toNat with
    | none => rw [hft] at h; cases h
    | some tk =>
      rw [hft] at h
      simp only [] at h
      by_cases hc3 : tk.status ≠ TkStatus.active
      · rw [if_pos hc3] at h; cases h
      rw [if_neg hc3] at h
      by_cases hc4 : ¬ ((((roundMatches s s.game.currentRound).foldl
          (fun a m => m.homeTeamId :: m.awayTeamId :: a) []).contains t1 &&
          (((roundMatches s s.game.currentRound).foldl
            (fun a m => m.homeTeamId :: m.awayTeamId :: a) []).contains t2)) = true)
      · rw [if_pos hc4] at h; cases h
      rw [if_neg hc4] at h
      by_cases hc5 : (((usedTeamIds s eid (max 1 (pyOrInt tb 1)).toNat
            s.game.currentRound).contains t1) ||
          ((usedTeamIds s eid (max 1 (pyOrInt tb 1)).toNat
            s.game.currentRound).contains t2)) = true
      · rw [if_pos hc5] at h; cases h
      rw [if_neg hc5] at h
      by_cases hc6 : (t1 == t2) = true
      · rw [if_pos hc6] at h; cases h
      rw [if_neg hc6] at h
      injection h with h
      subst h
      simp only [Bool.or_eq_true, not_or, Bool.not_eq_true] at hc5
      exact ⟨rfl, rfl, rfl, rfl, hc5.1, hc5.2, by simpa using hc6, rfl⟩

theorem submitSelection_ok {s : St} {eid t1 t2 : Nat} {s1 : St}
    (h : submitSelection s eid t1 t2 = .ok s1) :
    s1.game = s.game ∧ s1.tickets = s.tickets ∧ s1.fixtures = s.fixtures ∧
    s1.entries = s.entries ∧
    (usedAllTeamIds s eid).contains t1 = false ∧
    (usedAllTeamIds s eid).contains t2 = false ∧ t1 ≠ t2 ∧
    s1.selections = s.selections ++ [⟨eid, 1, s.game.currentRound, t1, t2⟩] := by
  simp only [submitSelection] at h
  cases hfe : findEntry s eid with
  | none => rw [hfe] at h; cases h
  | some e =>
    rw [hfe] at h
    simp only [] at h
    by_cases hc1 : e.status ≠ EStatus.active
    · rw [if_pos hc1] at h; cases h
    rw [if_neg hc1] at h
    by_cases hc2 : s.game.status ≠ GStatus.active
    · rw [if_pos hc2] at h; cases h
    rw [if_neg hc2] at h
    by_cases hc3 : s.game.roundsTotal < s.game.currentRound
    · rw [if_pos hc3] at h; cases h
    rw [if_neg hc3] at h
    by_cases hc4 : (((usedAllTeamIds s eid).contains t1) ||
        ((usedAllTeamIds s eid).contains t2)) = true
    · rw [if_pos hc4] at h; cases h
    rw [if_neg hc4] at h
    by_cases hc5 : (t1 == t2) = true
    · rw [if_pos hc5] at h; cases h
    rw [if_neg hc5] at h
    by_cases hc6 : ¬ ((s.teams.contains t1 && s.teams.contains t2) = true)
    · rw [if_pos hc6] at h; cases h
    rw [if_neg hc6] at h
    injection h with h
    subst h
    simp only [Bool.or_eq_true, not_or, Bool.not_eq_true] at hc4
    exact ⟨rfl, rfl, rfl, rfl, hc4.1, hc4.2, by simpa using hc5, rfl⟩

theorem cashOut_ok {s : St} {eid : Nat} {s1 : St} (h : cashOut s eid = .ok s1) :
    s1.game = s.game ∧ s1.selections = s.selections ∧ s1.tickets = s.tickets ∧
    s1.fixtures = s.fixtures := by
  simp only [cashOut] at h
  cases hfe : findEntry s eid with
  | none => rw [hfe] at h; cases h
  | some e =>
    rw [hfe] at h
    simp only [] at h
    by_cases hc1 : e.status ≠ EStatus.active
    · rw [if_pos hc1] at h; cases h
    rw [if_neg hc1] at h
    injection h with h
    subst h
    exact ⟨rfl, rfl, rfl, rfl⟩

theorem addEntry_fields (s : St) (uid : Nat) :
    (addEntry s uid).game = s.game ∧ (addEntry s uid).selections = s.selections ∧
    (addEntry s uid).tickets = s.tickets ∧ (addEntry s uid).fixtures = s.fixtures := by
  obtain ⟨h1, h2, h3, h4, h5, h6⟩ := ensureUser_fields s uid
  exact ⟨h1, h2, h3, h6⟩

theorem applyRoundResults_shape (s : St) (rnd : Nat) :
    (applyRoundResults s rnd).selections = s.selections ∧
    (applyRoundResults s rnd).fixtures = s.fixtures ∧
    (applyRoundResults s rnd).game.roundsTotal = s.game.roundsTotal ∧
    (applyRoundResults s rnd = s ∨
      ((applyRoundResults s rnd).game.currentRound = s.game.currentRound + 1 ∧
       (applyRoundResults s rnd).game.status =
         (if s.game.roundsTotal < s.game.currentRound + 1 then GStatus.finished
          else s.game.status))) := by
  simp only [applyRoundResults]
  by_cases hg : roundScored (roundMatches s rnd) = true
  · rw [if_pos hg]
    exact ⟨rfl, rfl, rfl, Or.inr ⟨rfl, rfl⟩⟩
  · rw [if_neg hg]
    exact ⟨rfl, rfl, rfl, Or.inl rfl⟩

theorem addTeams_fields (s : St) (ids : List Nat) :
    (addTeams s ids).game = s.game ∧ (addTeams s ids).selections = s.selections ∧
    (addTeams s ids).tickets = s.tickets ∧ (addTeams s ids).entries = s.entries := by
  exact ⟨rfl, rfl, rfl, rfl⟩

theorem addMatches_fields (s : St) (rnd : Nat) (pairs : List (Nat × Nat)) :
    (addMatches s rnd pairs).game = s.game ∧
    (addMatches s rnd pairs).selections = s.selections ∧
    (addMatches s rnd pairs).tickets = s.tickets ∧
    (addMatches s rnd pairs).entries = s.entries := by
  exact ⟨rfl, rfl, rfl, rfl⟩

theorem setGoals_fields (s : St) (rnd : Nat) (gs : List (Option Nat × Option Nat)) :
    (setGoals s rnd gs).game = s.game ∧ (setGoals s rnd gs).selections = s.selections ∧
    (setGoals s rnd gs).tickets = s.tickets ∧ (setGoals s rnd gs).entries = s.entries := by
  exact ⟨rfl, rfl, rfl, rfl⟩

theorem cmdResult_fields (s : St) (scores : List (Nat × Int)) :
    (cmdResult s scores).selections = s.selections ∧
    (cmdResult s scores).tickets = s.tickets ∧
    (cmdResult s scores).fixtures = s.fixtures ∧
    (cmdResult s scores).game.roundsTotal = s.game.roundsTotal ∧
    (cmdResult s scores).game = s.game ∨
      (s.game.status = GStatus.active ∧
        (cmdResult s scores).selections = s.selections ∧
        (cmdResult s scores).tickets = s.tickets ∧
        (cmdResult s scores).fixtures = s.fixtures ∧
        ((s.game.roundsTotal ≤ s.game.currentRound ∧
          (cmdResult s scores).game =
            { s.game with status := GStatus.finished, currentRound := s.game.roundsTotal }) ∨
         (s.game.currentRound < s.game.roundsTotal ∧
          (cmdResult s scores).game =
            { s.game with currentRound := s.game.currentRound + 1 }))) := by
  simp only [cmdResult]
  by_cases h1 : scores.isEmpty = true
  · rw [if_pos h1]
    exact Or.inl ⟨rfl, rfl, rfl, rfl, rfl⟩
  rw [if_neg h1]
  by_cases h2 : s.game.status ≠ GStatus.active
  · rw [if_pos h2]
    exact Or.inl ⟨rfl, rfl, rfl, rfl, rfl⟩
  rw [if_neg h2]
  right
  refine ⟨not_not.mp h2, rfl, rfl, rfl, ?_⟩
  by_cases h3 : s.game.roundsTotal ≤ s.game.currentRound
  · rw [if_pos h3]
    exact Or.inl ⟨h3, rfl⟩
  · rw [if_neg h3]
    exact Or.inr ⟨Nat.lt_of_not_le h3, rfl⟩

theorem fetchBundesligaRound_fields (s : St) (md : Nat) (ext : List ExtMatch) :
    (fetchBundesligaRound s md ext).selections = s.selections ∧
    (fetchBundesligaRound s md ext).tickets = s.tickets ∧
    (fetchBundesligaRound s md ext).entries = s.entries := by
  unfold fetchBundesligaRound
  split <;> exact ⟨rfl, rfl, rfl⟩

theorem runRound_shape (s : St) (eid : Nat) (g : Nat → Nat × Nat) :
    stOf s (runRound s eid g) = s ∨
    ∃ s2 : St, s2.game = s.game ∧ s2.selections = s.selections ∧ s2.tickets = s.tickets ∧
      s2.entries = s.entries ∧
      stOf s (runRound s eid g) = applyRoundResults s2 s.game.currentRound := by
  simp only [runRound]
  cases hfe : findEntry s eid with
  | none => exact Or.inl rfl
  | some e =>
    simp only []
    by_cases hc1 : e.status ≠ EStatus.active
    · rw [if_pos hc1]; exact Or.inl rfl
    rw [if_neg hc1]
    by_cases hc2 : s.game.status ≠ GStatus.active
    · rw [if_pos hc2]; exact Or.inl rfl
    rw [if_neg hc2]
    by_cases hc3 : (s.selections.find? (fun sel =>
        sel.entryId == eid && sel.round == s.game.currentRound)).isNone = true
    · rw [if_pos hc3]; exact Or.inl rfl
    rw [if_neg hc3]
    by_cases hc4 : (roundMatches s s.game.currentRound).isEmpty = true
    · rw [if_pos hc4]; exact Or.inl rfl
    rw [if_neg hc4]
    by_cases hc5 : roundScored (roundMatches s s.game.currentRound) = true
    · rw [if_pos hc5]; exact Or.inl rfl
    · rw [if_neg hc5]
      exact Or.inr ⟨{ s with fixtures := assignGoals s.fixtures s.game.currentRound g 0 },
        rfl, rfl, rfl, rfl, rfl⟩

theorem contains_false_iff (l : List Nat) (t : Nat) : l.contains t = false ↔ t ∉ l := by
  rw [Bool.eq_false_iff]
  exact not_congr List.elem_iff

theorem mem_usedTeamIds (s : St) (eid tidx rnd t : Nat) :
    t ∈ usedTeamIds s eid tidx rnd ↔
      ∃ sel ∈ s.selections, sel.entryId = eid ∧ sel.ticketIndex = tidx ∧
        sel.round < rnd ∧ (t = sel.team1Id ∨ t = sel.team2Id) := by
  rw [usedTeamIds, mem_collectTeamIds]
  constructor
  · rintro ⟨sel, hsel, hor⟩
    rw [List.mem_filter] at hsel
    obtain ⟨hmem, hcond⟩ := hsel
    simp only [Bool.and_eq_true, beq_iff_eq, decide_eq_true_eq] at hcond
    exact ⟨sel, hmem, hcond.1.1, hcond.1.2, hcond.2, hor⟩
  · rintro ⟨sel, hmem, h1, h2, h3, hor⟩
    refine ⟨sel, ?_, hor⟩
    rw [List.mem_filter]
    exact ⟨hmem, by simp [h1, h2, h3]⟩

theorem mem_usedAllTeamIds (s : St) (eid t : Nat) :
    t ∈ usedAllTeamIds s eid ↔
      ∃ sel ∈ s.selections, sel.entryId = eid ∧ (t = sel.team1Id ∨ t = sel.team2Id) := by
  rw [usedAllTeamIds, mem_collectTeamIds]
  constructor
  · rintro ⟨sel, hsel, hor⟩
    rw [List.mem_filter] at hsel
    obtain ⟨hmem, hcond⟩ := hsel
    exact ⟨sel, hmem, by simpa using hcond, hor⟩
  · rintro ⟨sel, hmem, h1, hor⟩
    refine ⟨sel, ?_, hor⟩
    rw [List.mem_filter]
    exact ⟨hmem, by simp [h1]⟩

theorem coreInv_congr {s s1 : St} (hg : s1.game = s.game)
    (hsel : s1.selections = s.selections) (h : CoreInv s) : CoreInv s1 := by
  unfold CoreInv PickTeamsDisjoint at h ⊢
  rw [hg, hsel]
  exact h

theorem coreInv_applyRoundResults (s : St) (rnd : Nat) (h : CoreInv s) :
    CoreInv (applyRoundResults s rnd) := by
  obtain ⟨hsel, hfix, htot, hcase⟩ := applyRoundResults_shape s rnd
  rcases hcase with heq | ⟨hcr, hst⟩
  · rw [heq]; exact h
  · obtain ⟨hdisj, hround, hbound⟩ := h
    refine ⟨?_, ?_, ?_⟩
    · unfold PickTeamsDisjoint at hdisj ⊢
      rw [hsel]; exact hdisj
    · intro sel hmem
      rw [hsel] at hmem
      rw [hcr]
      exact Nat.le_succ_of_le (hround sel hmem)
    · intro hact
      rw [hst] at hact
      rw [hcr, htot]
      by_cases hlt : s.game.roundsTotal < s.game.currentRound + 1
      · rw [if_pos hlt] at hact; cases hact
      · exact Nat.le_of_not_lt hlt

theorem coreInv_applyCore (op : CoreOp) (s : St) (h : CoreInv s) : CoreInv (applyCore op s) := by
  cases op with
  | deposit uid amt =>
    obtain ⟨hg, hsel, _, _⟩ := deposit_shape s uid amt
    exact coreInv_congr hg hsel h
  | join uid st n =>
    cases hj : joinGame s uid st n with
    | error e => simpa [applyCore, stOf, hj] using h
    | ok s1 =>
      obtain ⟨hg, hsel, _, _, _⟩ := joinGame_ok hj
      simpa [applyCore, stOf, hj] using coreInv_congr hg hsel h
  | addEntry uid =>
    obtain ⟨hg, hsel, _, _⟩ := addEntry_fields s uid
    exact coreInv_congr hg hsel h
  | addTeams ids =>
    obtain ⟨hg, hsel, _, _⟩ := addTeams_fields s ids
    exact coreInv_congr hg hsel h
  | addMatches rnd pairs =>
    obtain ⟨hg, hsel, _, _⟩ := addMatches_fields s rnd pairs
    exact coreInv_congr hg hsel h
  | setGoals rnd gs =>
    obtain ⟨hg, hsel, _, _⟩ := setGoals_fields s rnd gs
    exact coreInv_congr hg hsel h
  | cashOut eid =>
    cases hj : cashOut s eid with
    | error e => simpa [applyCore, stOf, hj] using h
    | ok s1 =>
      obtain ⟨hg, hsel, _, _⟩ := cashOut_ok hj
      simpa [applyCore, stOf, hj] using coreInv_congr hg hsel h
  | settle rnd =>
    exact coreInv_applyRoundResults s rnd h
  | runRound eid g =>
    rcases runRound_shape s eid g with heq | ⟨s2, hg2, hsel2, _, _, heq⟩
    · simp only [applyCore]
      rw [heq]
      exact h
    · have h2 : CoreInv s2 := coreInv_congr hg2 hsel2 h
      have h3 := coreInv_applyRoundResults s2 s.game.currentRound h2
      simp only [applyCore]
      rw [heq]
      exact h3
  | cmdResult scores =>
    obtain ⟨hdisj, hround, hbound⟩ := h
    rcases cmdResult_fields s scores with ⟨hsel, htk, hfix, htot, hgeq⟩ |
      ⟨hact, hsel, htk, hfix, hcase⟩
    · exact coreInv_congr hgeq hsel ⟨hdisj, hround, hbound⟩
    · refine ⟨?_, ?_, ?_⟩
      · unfold PickTeamsDisjoint at hdisj ⊢
        simp only [applyCore]
        rw [hsel]
        exact hdisj
      · intro sel hmem
        simp only [applyCore] at hmem ⊢
        rw [hsel] at hmem
        rcases hcase with ⟨hle, hgame⟩ | ⟨hlt, hgame⟩
        · rw [hgame]
          have := hbound hact
          have h2 := hround sel hmem
          simp only []
          omega
        · rw [hgame]
          have h2 := hround sel hmem
          simp only []
          omega
      · intro hact2
        simp only [applyCore] at hact2 ⊢
        rcases hcase with ⟨hle, hgame⟩ | ⟨hlt, hgame⟩
        · rw [hgame] at hact2
          cases hact2
        · rw [hgame] at hact2 ⊢
          simp only []
          omega
  | submitTeams eid t1 t2 tb =>
    cases hj : submitTwoTeams s eid t1 t2 tb with
    | error e => simpa [applyCore, stOf, hj] using h
    | ok s1 =>
      obtain ⟨hdisj, hround, hbound⟩ := h
      obtain ⟨hg, htk, hfix, hen, hu1, hu2, hne12, hsel⟩ := submitTwoTeams_ok hj
      have hnotu1 : t1 ∉ usedTeamIds s eid (max 1 (pyOrInt tb 1)).toNat s.game.currentRound :=
        (contains_false_iff _ _).mp hu1
      have hnotu2 : t2 ∉ usedTeamIds s eid (max 1 (pyOrInt tb 1)).toNat s.game.currentRound :=
        (contains_false_iff _ _).mp hu2
      simp only [applyCore, stOf, hj]
      refine ⟨?_, ?_, ?_⟩
      · intro a ha b hb hab1 hab2 hab3
        rw [hsel, List.mem_append] at ha hb
        have hmain : ∀ c : SelectionR,
            c ∈ s.selections.filter (fun sel =>
              !(sel.entryId == eid && sel.ticketIndex == (max 1 (pyOrInt tb 1)).toNat &&
                sel.round == s.game.currentRound)) →
            c.entryId = eid → c.ticketIndex = (max 1 (pyOrInt tb 1)).toNat →
            c.round ≠ s.game.currentRound →
            (c.team1Id ≠ t1 ∧ c.team1Id ≠ t2 ∧ c.team2Id ≠ t1 ∧ c.team2Id ≠ t2) := by
          intro c hc hce hct hcr
          rw [List.mem_filter] at hc
          have hcs : c ∈ s.selections := hc.1
          have hclt : c.round < s.game.currentRound :=
            Nat.lt_of_le_of_ne (hround c hcs) hcr
          have hm1 : c.team1Id ∈ usedTeamIds s eid
              (max 1 (pyOrInt tb 1)).toNat s.game.currentRound :=
            (mem_usedTeamIds s _ _ _ _).mpr ⟨c, hcs, hce, hct, hclt, Or.inl rfl⟩
          have hm2 : c.team2Id ∈ usedTeamIds s eid
              (max 1 (pyOrInt tb 1)).toNat s.game.currentRound :=
            (mem_usedTeamIds s _ _ _ _).mpr ⟨c, hcs, hce, hct, hclt, Or.inr rfl⟩
          exact ⟨fun hc1 => hnotu1 (hc1 ▸ hm1), fun hc2 => hnotu2 (hc2 ▸ hm1),
            fun hc3 => hnotu1 (hc3 ▸ hm2), fun hc4 => hnotu2 (hc4 ▸ hm2)⟩
        rcases ha with ha | ha <;> rcases hb with hb | hb
        · exact hdisj a (List.mem_of_mem_filter ha) b (List.mem_of_mem_filter hb) hab1 hab2 hab3
        · have hbval : b = ⟨eid, (max 1 (pyOrInt tb 1)).toNat, s.game.currentRound, t1, t2⟩ := by
            simpa using hb
          have := hmain a ha (by rw [hab1, hbval]) (by rw [hab2, hbval])
            (by rw [hbval] at hab3; simpa using hab3)
          rw [hbval]
          exact this
        · have haval : a = ⟨eid, (max 1 (pyOrInt tb 1)).toNat, s.game.currentRound, t1, t2⟩ := by
            simpa using ha
          obtain ⟨q1, q2, q3, q4⟩ := hmain b hb (by rw [← hab1, haval])
            (by rw [← hab2, haval]) (by rw [haval] at hab3; simpa using hab3.symm)
          rw [haval]
          exact ⟨fun hc => q1 hc.symm, fun hc => q3 hc.symm,
            fun hc => q2 hc.symm, fun hc => q4 hc.symm⟩
        · have haval : a = ⟨eid, (max 1 (pyOrInt tb 1)).toNat, s.game.currentRound, t1, t2⟩ := by
            simpa using ha
          have hbval : b = ⟨eid, (max 1 (pyOrInt tb 1)).toNat, s.game.currentRound, t1, t2⟩ := by
            simpa using hb
          rw [haval, hbval] at hab3
          exact absurd rfl hab3
      · intro sel hmem
        rw [hsel, List.mem_append] at hmem
        rw [hg]
        rcases hmem with hmem | hmem
        · exact hround sel (List.mem_of_mem_filter hmem)
        · have : sel = ⟨eid, (max 1 (pyOrInt tb 1)).toNat, s.game.currentRound, t1, t2⟩ := by
            simpa using hmem
          rw [this]
      · rw [hg]
        exact hbound
  | submitSel eid t1 t2 =>
    cases hj : submitSelection s eid t1 t2 with
    | error e => simpa [applyCore, stOf, hj] using h
    | ok s1 =>
      obtain ⟨hdisj, hround, hbound⟩ := h
      obtain ⟨hg, htk, hfix, hen, hu1, hu2, hne12, hsel⟩ := submitSelection_ok hj
      have hnotu1 : t1 ∉ usedAllTeamIds s eid := (contains_false_iff _ _).mp hu1
      have hnotu2 : t2 ∉ usedAllTeamIds s eid := (contains_false_iff _ _).mp hu2
      simp only [applyCore, stOf, hj]
      have hmain : ∀ c : SelectionR, c ∈ s.selections → c.entryId = eid →
          (c.team1Id ≠ t1 ∧ c.team1Id ≠ t2 ∧ c.team2Id ≠ t1 ∧ c.team2Id ≠ t2) := by
        intro c hcs hce
        have hm1 : c.team1Id ∈ usedAllTeamIds s eid :=
          (mem_usedAllTeamIds s _ _).mpr ⟨c, hcs, hce, Or.inl rfl⟩
        have hm2 : c.team2Id ∈ usedAllTeamIds s eid :=
          (mem_usedAllTeamIds s _ _).mpr ⟨c, hcs, hce, Or.inr rfl⟩
        exact ⟨fun hc1 => hnotu1 (hc1 ▸ hm1), fun hc2 => hnotu2 (hc2 ▸ hm1),
          fun hc3 => hnotu1 (hc3 ▸ hm2), fun hc4 => hnotu2 (hc4 ▸ hm2)⟩
      refine ⟨?_, ?_, ?_⟩
      · intro a ha b hb hab1 hab2 hab3
        rw [hsel, List.mem_append] at ha hb
        rcases ha with ha | ha <;> rcases hb with hb | hb
        · exact hdisj a ha b hb hab1 hab2 hab3
        · have hbval : b = ⟨eid, 1, s.game.currentRound, t1, t2⟩ := by simpa using hb
          have := hmain a ha (by rw [hab1, hbval])
          rw [hbval]
          exact this
        · have haval : a = ⟨eid, 1, s.game.currentRound, t1, t2⟩ := by simpa using ha
          obtain ⟨q1, q2, q3, q4⟩ := hmain b hb (by rw [← hab1, haval])
          rw [haval]
          exact ⟨fun hc => q1 hc.symm, fun hc => q3 hc.symm,
            fun hc => q2 hc.symm, fun hc => q4 hc.symm⟩
        · have haval : a = ⟨eid, 1, s.game.currentRound, t1, t2⟩ := by simpa using ha
          have hbval : b = ⟨eid, 1, s.game.currentRound, t1, t2⟩ := by simpa using hb
          rw [haval, hbval] at hab3
          exact absurd rfl hab3
      · intro sel hmem
        rw [hsel, List.mem_append] at hmem
        rw [hg]
        rcases hmem with hmem | hmem
        · exact hround sel hmem
        · have : sel = ⟨eid, 1, s.game.currentRound, t1, t2⟩ := by simpa using hmem
          rw [this]
      · rw [hg]
        exact hbound

theorem find?_map_user (us : List UserR) (f : UserR → UserR)
    (hf : ∀ u, (f u).id = u.id) (uid : Nat) :
    (us.map f).find? (fun u => u.id == uid) = (us.find? (fun u => u.id == uid)).map f := by
  induction us with
  | nil => rfl
  | cons u rest ih =>
    by_cases hu : (u.id == uid) = true
    · have hfu : ((f u).id == uid) = true := by rw [hf u]; exact hu
      simp only [List.map_cons, List.find?, hu, hfu]
      rfl
    · have hu2 : (u.id == uid) = false := Bool.eq_false_iff.mpr hu
      have hfu : ((f u).id == uid) = false := by rw [hf u]; exact hu2
      simp only [List.map_cons, List.find?, hu2, hfu]
      exact ih

theorem balanceOf_setUserBalance (s : St) (uid : Nat) (v : ℚ)
    (h : (s.users.find? (fun u => u.id == uid)).isSome = true) :
    balanceOf (setUserBalance s uid v) uid = round6 v := by
  unfold balanceOf setUserBalance
  simp only []
  rw [find?_map_user s.users _ (fun u => by split <;> rfl) uid]
  cases hfind : s.users.find? (fun u => u.id == uid) with
  | none => rw [hfind] at h; cases h
  | some u0 =>
    have hid := List.find?_some hfind
    simp only [Option.map]
    rw [if_pos hid]

theorem find?_map_entry (ens : List EntryR) (f : EntryR → EntryR)
    (hf : ∀ e, (f e).id = e.id) (eid : Nat) :
    (ens.map f).find? (fun e => e.id == eid) = (ens.find? (fun e => e.id == eid)).map f := by
  induction ens with
  | nil => rfl
  | cons e rest ih =>
    by_cases he : (e.id == eid) = true
    · have hfe : ((f e).id == eid) = true := by rw [hf e]; exact he
      simp only [List.map_cons, List.find?, he, hfe]
      rfl
    · have he2 : (e.id == eid) = false := Bool.eq_false_iff.mpr he
      have hfe : ((f e).id == eid) = false := by rw [hf e]; exact he2
      simp only [List.map_cons, List.find?, he2, hfe]
      exact ih

theorem stakesPreserved_of_eq {s s1 : St} (h : s1.tickets = s.tickets) :
    StakesPreserved s s1 := by
  intro eid tidx tk hft
  refine ⟨tk, ?_, rfl⟩
  rw [findTicket, h]
  exact hft

theorem stakesPreserved_append {s s1 : St} (tks2 : List TicketR)
    (h : s1.tickets = s.tickets ++ tks2) : StakesPreserved s s1 := by
  intro eid tidx tk hft
  refine ⟨tk, ?_, rfl⟩
  rw [findTicket, h, List.find?_append]
  rw [findTicket] at hft
  rw [hft]
  rfl

theorem ticketSelections_eq_filter_filter (s : St) (rnd eid tidx : Nat) :
    (s.selections.filter (fun sel => sel.round == rnd)).filter
      (fun x => x.entryId == eid && x.ticketIndex == tidx) =
      ticketSelections s rnd eid tidx := by
  rw [List.filter_filter, ticketSelections]
  apply List.filter_congr
  intro x hx
  cases hr : (x.round == rnd) <;> cases he : (x.entryId == eid) <;>
    cases ht : (x.ticketIndex == tidx) <;> rfl

theorem applyRoundResults_ticket_outcome (s : St) (rnd eid tidx t1 t2 : Nat) (tk : TicketR)
    (hsc : roundScored (roundMatches s rnd) = true)
    (hfil : ticketSelections s rnd eid tidx = [⟨eid, tidx, rnd, t1, t2⟩])
    (hft : findTicket s.tickets eid tidx = some tk)
    (hact : tk.status = TkStatus.active) :
    findTicket (applyRoundResults s rnd).tickets eid tidx =
      some (if (scoredTeamIds (roundMatches s rnd)).contains t1 &&
              (scoredTeamIds (roundMatches s rnd)).contains t2
        then { tk with stakeAmount := qMul tk.stakeAmount (mkRat 3 2) }
        else { tk with status := TkStatus.out }) := by
  simp only [applyRoundResults]
  rw [if_pos hsc]
  simp only []
  exact foldProcess_unique (scoredTeamIds (roundMatches s rnd))
    (s.selections.filter (fun sel => sel.round == rnd)) eid tidx
    ⟨eid, tidx, rnd, t1, t2⟩
    (by rw [ticketSelections_eq_filter_filter]; exact hfil)
    (s.tickets, s.entries) tk hft hact

theorem coreInv_runOps (ops : List CoreOp) : ∀ s : St, CoreInv s → CoreInv (runOps s ops) := by
  induction ops with
  | nil => intro s h; exact h
  | cons op rest ih =>
    intro s h
    exact ih _ (coreInv_applyCore op s h)

theorem coreInv_initSt (title : String) (seed : List Nat) : CoreInv (initSt title seed) := by
  refine ⟨?_, ?_, ?_⟩
  · intro a ha
    cases ha
  · intro sel hsel
    cases hsel
  · intro _
    show (1 : Nat) ≤ 10
    omega

theorem currentRound_mono_applyCore (op : CoreOp) (s : St) (h : CoreInv s) :
    s.game.currentRound ≤ (applyCore op s).game.currentRound := by
  obtain ⟨hdisj, hround, hbound⟩ := h
  cases op with
  | deposit uid amt =>
    simp only [applyCore]
    rw [(deposit_shape s uid amt).1]
  | join uid st n =>
    cases hj : joinGame s uid st n with
    | error e => simp [applyCore, stOf, hj]
    | ok s1 =>
      simp only [applyCore, stOf, hj]
      rw [(joinGame_ok hj).1]
  | addEntry uid => rw [show (applyCore (CoreOp.addEntry uid) s).game = s.game from
      (addEntry_fields s uid).1]
  | addTeams ids => rw [show (applyCore (CoreOp.addTeams ids) s).game = s.game from
      (addTeams_fields s ids).1]
  | addMatches rnd pairs => rw [show (applyCore (CoreOp.addMatches rnd pairs) s).game = s.game from
      (addMatches_fields s rnd pairs).1]
  | setGoals rnd gs => rw [show (applyCore (CoreOp.setGoals rnd gs) s).game = s.game from
      (setGoals_fields s rnd gs).1]
  | submitTeams eid t1 t2 tb =>
    cases hj : submitTwoTeams s eid t1 t2 tb with
    | error e => simp [applyCore, stOf, hj]
    | ok s1 =>
      simp only [applyCore, stOf, hj]
      rw [(submitTwoTeams_ok hj).1]
  | submitSel eid t1 t2 =>
    cases hj : submitSelection s eid t1 t2 with
    | error e => simp [applyCore, stOf, hj]
    | ok s1 =>
      simp only [applyCore, stOf, hj]
      rw [(submitSelection_ok hj).1]
  | cashOut eid =>
    cases hj : cashOut s eid with
    | error e => simp [applyCore, stOf, hj]
    | ok s1 =>
      simp only [applyCore, stOf, hj]
      rw [(cashOut_ok hj).1]
  | settle rnd =>
    rcases (applyRoundResults_shape s rnd).2.2.2 with heq | ⟨hcr, _⟩
    · simp only [applyCore]
      rw [heq]
    · simp only [applyCore]
      rw [hcr]
      exact Nat.le_succ _
  | runRound eid g =>
    rcases runRound_shape s eid g with heq | ⟨s2, hg2, _, _, _, heq⟩
    · simp only [applyCore]
      rw [heq]
    · simp only [applyCore]
      rw [heq]
      rcases (applyRoundResults_shape s2 s.game.currentRound).2.2.2 with heq2 | ⟨hcr, _⟩
      · rw [heq2, hg2]
      · rw [hcr, hg2]
        exact Nat.le_succ _
  | cmdResult scores =>
    rcases cmdResult_fields s scores with ⟨_, _, _, _, hgeq⟩ |
      ⟨hact, _, _, _, hcase⟩
    · simp only [applyCore]
      rw [hgeq]
    · simp only [applyCore]
      rcases hcase with ⟨hle, hgame⟩ | ⟨hlt, hgame⟩
      · rw [hgame]
        have := hbound hact
        simp only []
        omega
      · rw [hgame]
        simp only []
        omega

/-- Claim C1: settlement is not idempotent — the code bug the specification
flags. With the round-1 fixture already carrying a final score (1:1) and
one surviving ticket of stake 1, a first call of `_apply_round_results`
multiplies the stake by 1.5 (to `mkRat 3 2`) and advances the round to 2;
calling it again for the same round 1 with unchanged fixture data
re-applies the 1.5 factor (stake `mkRat 9 4` = 2.25) and re-advances the
round counter to 3, so the second call does not leave the state
identical. -/
theorem settleRound_not_idempotent :
    (applyRoundResults exSettleSt 1).game.currentRound = 2 ∧
    findTicket (applyRoundResults exSettleSt 1).tickets 1 1 =
      some ⟨1, 1, mkRat 3 2, TkStatus.active⟩ ∧
    (applyRoundResults (applyRoundResults exSettleSt 1) 1).game.currentRound = 3 ∧
    findTicket (applyRoundResults (applyRoundResults exSettleSt 1) 1).tickets 1 1 =
      some ⟨1, 1, mkRat 9 4, TkStatus.active⟩ ∧
    applyRoundResults (applyRoundResults exSettleSt 1) 1 ≠ applyRoundResults exSettleSt 1 := by
  refine ⟨by decide, by decide, by decide, by decide, by decide⟩

/-- Claim C3, counterexample: in the reachable state `disjointCexSt`
(fetch matchday 2, join, pick teams (10,11) for round 2, fetch matchday 1,
pick (10,12) for round 1) the same ticket uses team 10 in two distinct
rounds, because `submit_two_teams` only validates against rounds strictly
below the game's current round and `fetch_bundesliga_round` moved the
current round backwards. -/
theorem pickTeamsDisjoint_cex : ¬ PickTeamsDisjoint disjointCexSt := by decide

/-- Claim C3, amended: under every sequence of core operations (deposits,
joins, admin entry/team/fixture additions, pick submissions, goal
updates, round simulations, settlements, cash-outs and the legacy result
command) starting from a freshly created game, a ticket never reuses a
team across distinct rounds; the claim as stated fails only through
`fetch_bundesliga_round` resetting the round counter. -/
theorem pickTeamsDisjoint_core (title : String) (seed : List Nat) (ops : List CoreOp) :
    PickTeamsDisjoint (runOps (initSt title seed) ops) :=
  (coreInv_runOps ops _ (coreInv_initSt title seed)).1

/-- Claim C4, counterexample: `fetch_bundesliga_round` sets
`current_round` to the externally reported matchday, so fetching matchday
1 on a Bundesliga game sitting at round 2 strictly decreases
`current_round`. -/
theorem currentRound_decreases_cex :
    (fetchBundesligaRound roundTwoSt 1 [⟨10, 11, none, none⟩]).game.currentRound <
      roundTwoSt.game.currentRound := by decide

/-- Claim C5, counterexample: in the reachable state `entryOutCexSt` the
legacy `/result` bot command has marked entry 1 `out` (its round-1 pick
named team 12, reported with 0 goals) while the entry's only ticket is
still `active` — the command updates entry status without consulting
tickets. -/
theorem entryOutNoActive_cex : ¬ EntryOutNoActiveTicket entryOutCexSt := by decide

/-- Claim C5, amended: the settlement engine `_apply_round_results` marks
an entry `out` only when none of its tickets remains active — any entry
that is `out` after settlement was already `out` before or has no active
ticket afterwards. The claim as stated fails only through the legacy
`/result` command. -/
theorem settlement_entry_out_only_all_tickets_out (s : St) (rnd : Nat) :
    ∀ e1 ∈ (applyRoundResults s rnd).entries, e1.status = EStatus.out →
      (∃ e0 ∈ s.entries, e0.id = e1.id ∧ e0.status = EStatus.out) ∨
      NoActiveFor (applyRoundResults s rnd).tickets e1.id := by
  simp only [applyRoundResults]
  by_cases hg : roundScored (roundMatches s rnd) = true
  · rw [if_pos hg]
    simp only []
    exact outInv_foldProcess (scoredTeamIds (roundMatches s rnd))
      (s.selections.filter (fun sel => sel.round == rnd)) s.entries
      (s.tickets, s.entries)
      (fun e1 he1 hout => Or.inl ⟨e1, he1, rfl, hout⟩)
  · rw [if_neg hg]
    exact fun e1 he1 hout => Or.inl ⟨e1, he1, rfl, hout⟩

/-- Claim C5, amended, witness: settling the specification's scenario
state (pick (10,12) with 12 scoring 0) puts entry 1 `out`, and the
theorem yields that it was out before or has no active ticket left —
here the right disjunct, as its only ticket is now `out`. -/
theorem settlement_entry_out_witness :
    ((⟨1, 7, EStatus.out, none, some 1⟩ : EntryR) ∈
        (applyRoundResults exScoredSt 1).entries ∧
      (⟨1, 7, EStatus.out, none, some 1⟩ : EntryR).status = EStatus.out) ∧
    ((∃ e0 ∈ exScoredSt.entries, e0.id = 1 ∧ e0.status = EStatus.out) ∨
      NoActiveFor (applyRoundResults exScoredSt 1).tickets 1) :=
  ⟨⟨by decide, by decide⟩,
    settlement_entry_out_only_all_tickets_out exScoredSt 1
      ⟨1, 7, EStatus.out, none, some 1⟩ (by decide) (by decide)⟩

/-- Claim C8, counterexample: in the reachable state `doublePickCexSt`
two successful calls of the legacy `/api/selection` endpoint have stacked
two Picks for ticket 1 in round 1 — the endpoint inserts without
replacing the prior pick. -/
theorem atMostOnePick_cex : ¬ AtMostOnePickPerRound doublePickCexSt := by decide

/-- Claim C8, amended: the two-team submission endpoint
`submit_two_teams` does replace — after a successful call, the ticket has
exactly one Pick for the current round, whatever was stored before. The
claim as stated fails only through the legacy `submit_selection`
endpoint, which appends without deleting. -/
theorem submitTwoTeams_replaces (s : St) (eid t1 t2 : Nat) (tb : Option Int) (s1 : St)
    (h : submitTwoTeams s eid t1 t2 tb = .ok s1) :
    s1.selections.filter (fun x => x.entryId == eid &&
        x.ticketIndex == (max 1 (pyOrInt tb 1)).toNat &&
        x.round == s.game.currentRound) =
      [⟨eid, (max 1 (pyOrInt tb 1)).toNat, s.game.currentRound, t1, t2⟩] := by
  obtain ⟨_, _, _, _, _, _, _, hsel⟩ := submitTwoTeams_ok h
  rw [hsel, List.filter_append]
  have h1 : List.filter (fun x => x.entryId == eid &&
      x.ticketIndex == (max 1 (pyOrInt tb 1)).toNat &&
      x.round == s.game.currentRound)
      (s.selections.filter (fun sel =>
        !(sel.entryId == eid && sel.ticketIndex == (max 1 (pyOrInt tb 1)).toNat &&
          sel.round == s.game.currentRound))) = [] := by
    rw [List.filter_eq_nil_iff]
    intro a ha
    rw [List.mem_filter] at ha
    have ha2 := ha.2
    simp only [Bool.not_eq_true'] at ha2
    simp [ha2]
  rw [h1]
  simp

/-- Claim C8, amended, witness: replacing the stored pick (10,12) of
ticket 1 in `exScoredSt` by (11,13) leaves exactly that one pick for
(entry 1, ticket 1, round 1). -/
theorem submitTwoTeams_replaces_witness :
    ∃ s1, submitTwoTeams exScoredSt 1 11 13 none = .ok s1 ∧
      s1.selections.filter (fun x => x.entryId == 1 &&
          x.ticketIndex == (max 1 (pyOrInt none 1)).toNat &&
          x.round == exScoredSt.game.currentRound) =
        [⟨1, (max 1 (pyOrInt none 1)).toNat, exScoredSt.game.currentRound, 11, 13⟩] :=
  ⟨stOf exScoredSt (submitTwoTeams exScoredSt 1 11 13 none), by rfl,
    submitTwoTeams_replaces exScoredSt 1 11 13 none _ (by rfl)⟩

/-- Claim C4, amended: under every core operation the round counter never
decreases; a settlement that actually applies (fixtures present and
scored) increments `current_round` by exactly one and finishes the game
exactly when the incremented counter passes `rounds_total` (or it was
finished already); and while the game is active, `current_round` never
exceeds `rounds_total` in any state reachable from a fresh game. The
claim as stated fails only for `fetch_bundesliga_round`, which resets
`current_round` to the external matchday. -/
theorem currentRound_monotone_and_increment :
    (∀ (title : String) (seed : List Nat) (ops : List CoreOp) (op : CoreOp),
      (runOps (initSt title seed) ops).game.currentRound ≤
        (applyCore op (runOps (initSt title seed) ops)).game.currentRound) ∧
    (∀ (s : St) (rnd : Nat), roundScored (roundMatches s rnd) = true →
      (applyRoundResults s rnd).game.currentRound = s.game.currentRound + 1 ∧
      ((applyRoundResults s rnd).game.status = GStatus.finished ↔
        (s.game.roundsTotal < s.game.currentRound + 1 ∨
          s.game.status = GStatus.finished))) ∧
    (∀ (title : String) (seed : List Nat) (ops : List CoreOp),
      (runOps (initSt title seed) ops).game.status = GStatus.active →
      (runOps (initSt title seed) ops).game.currentRound ≤
        (runOps (initSt title seed) ops).game.roundsTotal) := by
  refine ⟨?_, ?_, ?_⟩
  · intro title seed ops op
    exact currentRound_mono_applyCore op _ (coreInv_runOps ops _ (coreInv_initSt title seed))
  · intro s rnd hsc
    constructor
    · simp only [applyRoundResults]
      rw [if_pos hsc]
    · simp only [applyRoundResults]
      rw [if_pos hsc]
      simp only []
      by_cases hlt : s.game.roundsTotal < s.game.currentRound + 1
      · rw [if_pos hlt]
        exact ⟨fun _ => Or.inl hlt, fun _ => rfl⟩
      · rw [if_neg hlt]
        constructor
        · intro h2
          exact Or.inr h2
        · rintro (h2 | h2)
          · exact absurd h2 hlt
          · exact h2
  · intro title seed ops hact
    exact (coreInv_runOps ops _ (coreInv_initSt title seed)).2.2 hact

/-- Claim C4, amended, witness: settling round 1 of the settled example
state advances the counter from 1 to 2 without finishing a 5-round game,
the settle operation on the fresh game does not decrease the counter, and
the fresh game's active counter respects its `rounds_total`. -/
theorem currentRound_monotone_witness :
    roundScored (roundMatches exSettleSt 1) = true ∧
    (applyRoundResults exSettleSt 1).game.currentRound =
      exSettleSt.game.currentRound + 1 ∧
    ((applyRoundResults exSettleSt 1).game.status = GStatus.finished ↔
      (exSettleSt.game.roundsTotal < exSettleSt.game.currentRound + 1 ∨
        exSettleSt.game.status = GStatus.finished)) ∧
    (runOps (initSt "G" []) []).game.currentRound ≤
      (applyCore (CoreOp.settle 1) (runOps (initSt "G" []) [])).game.currentRound ∧
    (runOps (initSt "G" []) []).game.status = GStatus.active ∧
    (runOps (initSt "G" []) []).game.currentRound ≤
      (runOps (initSt "G" []) []).game.roundsTotal :=
  ⟨by decide,
    (currentRound_monotone_and_increment.2.1 exSettleSt 1 (by decide)).1,
    (currentRound_monotone_and_increment.2.1 exSettleSt 1 (by decide)).2,
    currentRound_monotone_and_increment.1 "G" [] [] (CoreOp.settle 1),
    by decide,
    currentRound_monotone_and_increment.2.2 "G" [] [] (by decide)⟩

/-- Claim C2: in any state, a team is in the scored set of a round
exactly when some fixture of the round records at least one goal for it
(a 0:0 fixture contributes neither team); and an active ticket holding
the round's unique pick (t1, t2) has its stake multiplied by 1.5 when
both teams are in the scored set, and is put `out` (stake untouched)
otherwise. -/
theorem scoredSet_and_pickOutcome (s : St) (rnd : Nat) :
    (∀ t : Nat, t ∈ scoredTeamIds (roundMatches s rnd) ↔
      ∃ m ∈ roundMatches s rnd,
        (m.homeTeamId = t ∧ 1 ≤ m.homeGoals.getD 0) ∨
        (m.awayTeamId = t ∧ 1 ≤ m.awayGoals.getD 0)) ∧
    (∀ (eid tidx t1 t2 : Nat) (tk : TicketR),
      roundScored (roundMatches s rnd) = true →
      ticketSelections s rnd eid tidx = [⟨eid, tidx, rnd, t1, t2⟩] →
      findTicket s.tickets eid tidx = some tk →
      tk.status = TkStatus.active →
      ((t1 ∈ scoredTeamIds (roundMatches s rnd) ∧
          t2 ∈ scoredTeamIds (roundMatches s rnd)) →
        findTicket (applyRoundResults s rnd).tickets eid tidx =
          some { tk with stakeAmount := tk.stakeAmount * (3/2) }) ∧
      (¬ (t1 ∈ scoredTeamIds (roundMatches s rnd) ∧
          t2 ∈ scoredTeamIds (roundMatches s rnd)) →
        findTicket (applyRoundResults s rnd).tickets eid tidx =
          some { tk with status := TkStatus.out })) := by
  constructor
  · exact fun t => mem_scoredTeamIds (roundMatches s rnd) t
  · intro eid tidx t1 t2 tk hsc hfil hft hact
    have hout := applyRoundResults_ticket_outcome s rnd eid tidx t1 t2 tk hsc hfil hft hact
    constructor
    · rintro ⟨hm1, hm2⟩
      have hc1 : (scoredTeamIds (roundMatches s rnd)).contains t1 = true :=
        List.elem_iff.mpr hm1
      have hc2 : (scoredTeamIds (roundMatches s rnd)).contains t2 = true :=
        List.elem_iff.mpr hm2
      rw [hout, if_pos (by rw [hc1, hc2]; rfl)]
      have harith : qMul tk.stakeAmount (mkRat 3 2) = tk.stakeAmount * (3/2) := by
        rw [qMul_eq, mkRatQ]
        norm_num
      rw [harith]
    · intro hnot
      have hcond : ¬ (((scoredTeamIds (roundMatches s rnd)).contains t1 &&
          (scoredTeamIds (roundMatches s rnd)).contains t2) = true) := by
        intro hc
        rw [Bool.and_eq_true] at hc
        exact hnot ⟨List.elem_iff.mp hc.1, List.elem_iff.mp hc.2⟩
      rw [hout, if_neg hcond]

/-- Claim C2, witness: in the specification's scenario (10 vs 11 ends
2:0, 12 vs 13 ends 0:0) only team 10 is in the scored set, and the
active ticket picking (10, 12) is put `out` with its stake frozen at 1. -/
theorem scoredSet_and_pickOutcome_witness :
    (10 ∈ scoredTeamIds (roundMatches exScoredSt 1) ∧
      11 ∉ scoredTeamIds (roundMatches exScoredSt 1) ∧
      12 ∉ scoredTeamIds (roundMatches exScoredSt 1) ∧
      13 ∉ scoredTeamIds (roundMatches exScoredSt 1)) ∧
    findTicket (applyRoundResults exScoredSt 1).tickets 1 1 =
      some ⟨1, 1, 1, TkStatus.out⟩ := by
  refine ⟨⟨by decide, by decide, by decide, by decide⟩, ?_⟩
  exact ((scoredSet_and_pickOutcome exScoredSt 1).2 1 1 10 12 ⟨1, 1, 1, TkStatus.active⟩
    (by decide) (by decide) (by decide) (by decide)).2 (by decide)

theorem passesRound_step (s : St) (r eid tidx t1 t2 : Nat) (tk : TicketR)
    (hpr : PassesRoundWith s r eid tidx t1 t2)
    (hft : findTicket s.tickets eid tidx = some tk) :
    findTicket (applyRoundResults s r).tickets eid tidx =
      some { tk with stakeAmount := qMul tk.stakeAmount (mkRat 3 2) } := by
  obtain ⟨hsc, hfil, hc1, hc2, hst⟩ := hpr
  have hact : tk.status = TkStatus.active := by
    rw [hft] at hst
    simpa using hst
  have hout := applyRoundResults_ticket_outcome s r eid tidx t1 t2 tk hsc hfil hft hact
  rw [hout, if_pos (by rw [hc1, hc2]; rfl)]

/-- Claim C7: a ticket that passes a run of consecutive settled rounds
with no failure ends with stake s × 1.5^k (exactly, in rationals); and
every operation other than round settlement — deposits, joins, entry and
team and fixture additions, pick submissions, sync score updates,
cash-outs, the legacy result command, and the Bundesliga fetch — leaves
every existing ticket's stake unchanged. -/
theorem stake_compounds_only_at_settlement :
    (∀ (eid tidx : Nat) (s : St) (tr : List (Nat × Nat × Nat)),
      PassesAll eid tidx s tr →
      ∀ tk : TicketR, findTicket s.tickets eid tidx = some tk →
      findTicket (settleRounds s (tr.map (fun p => p.1))).tickets eid tidx =
        some { tk with stakeAmount := tk.stakeAmount * (3/2) ^ tr.length }) ∧
    (∀ (s : St) (uid : Nat) (amt : ℚ), StakesPreserved s (stOf s (deposit s uid amt))) ∧
    (∀ (s : St) (uid : Nat) (st : Option ℚ) (n : Option Int),
      StakesPreserved s (stOf s (joinGame s uid st n))) ∧
    (∀ (s : St) (uid : Nat), StakesPreserved s (addEntry s uid)) ∧
    (∀ (s : St) (ids : List Nat), StakesPreserved s (addTeams s ids)) ∧
    (∀ (s : St) (rnd : Nat) (pairs : List (Nat × Nat)),
      StakesPreserved s (addMatches s rnd pairs)) ∧
    (∀ (s : St) (eid t1 t2 : Nat) (tb : Option Int),
      StakesPreserved s (stOf s (submitTwoTeams s eid t1 t2 tb))) ∧
    (∀ (s : St) (eid t1 t2 : Nat), StakesPreserved s (stOf s (submitSelection s eid t1 t2))) ∧
    (∀ (s : St) (rnd : Nat) (gs : List (Option Nat × Option Nat)),
      StakesPreserved s (setGoals s rnd gs)) ∧
    (∀ (s : St) (eid : Nat), StakesPreserved s (stOf s (cashOut s eid))) ∧
    (∀ (s : St) (scores : List (Nat × Int)), StakesPreserved s (cmdResult s scores)) ∧
    (∀ (s : St) (md : Nat) (ext : List ExtMatch),
      StakesPreserved s (fetchBundesligaRound s md ext)) := by
  refine ⟨?_, ?_, ?_, ?_, ?_, ?_, ?_, ?_, ?_, ?_, ?_, ?_⟩
  · intro eid tidx s tr hpa
    induction hpa with
    | nil s =>
      intro tk hft
      rw [settleRounds]
      simp only [List.map_nil, List.foldl_nil, List.length_nil, pow_zero, mul_one]
      exact hft
    | cons s r t1 t2 tr hpr hrest ih =>
      intro tk hft
      have hstep := passesRound_step s r eid tidx t1 t2 tk hpr hft
      have ihstep := ih _ hstep
      rw [show settleRounds s (((r, t1, t2) :: tr).map (fun p => p.1)) =
          settleRounds (applyRoundResults s r) (tr.map (fun p => p.1)) from rfl]
      rw [ihstep]
      refine congrArg some ?_
      show ({ tk with stakeAmount := qMul tk.stakeAmount (mkRat 3 2) * (3/2 : ℚ) ^ tr.length }
        : TicketR) = _
      have harith : qMul tk.stakeAmount (mkRat 3 2) * (3/2 : ℚ) ^ tr.length =
          tk.stakeAmount * (3/2 : ℚ) ^ ((r, t1, t2) :: tr).length := by
        rw [qMul_eq, mkRatQ, List.length_cons, pow_succ]
        push_cast
        ring
      rw [harith]
  · intro s uid amt
    exact stakesPreserved_of_eq (deposit_shape s uid amt).2.2.1
  · intro s uid st n
    cases hj : joinGame s uid st n with
    | error e => exact stakesPreserved_of_eq rfl
    | ok s1 =>
      obtain ⟨_, _, _, ⟨tks2, htk⟩, _⟩ := joinGame_ok hj
      exact stakesPreserved_append tks2 htk
  · intro s uid
    exact stakesPreserved_of_eq (addEntry_fields s uid).2.2.1
  · intro s ids
    exact stakesPreserved_of_eq rfl
  · intro s rnd pairs
    exact stakesPreserved_of_eq rfl
  · intro s eid t1 t2 tb
    cases hj : submitTwoTeams s eid t1 t2 tb with
    | error e => exact stakesPreserved_of_eq rfl
    | ok s1 => exact stakesPreserved_of_eq (submitTwoTeams_ok hj).2.1
  · intro s eid t1 t2
    cases hj : submitSelection s eid t1 t2 with
    | error e => exact stakesPreserved_of_eq rfl
    | ok s1 => exact stakesPreserved_of_eq (submitSelection_ok hj).2.1
  · intro s rnd gs
    exact stakesPreserved_of_eq rfl
  · intro s eid
    cases hj : cashOut s eid with
    | error e => exact stakesPreserved_of_eq rfl
    | ok s1 => exact stakesPreserved_of_eq (cashOut_ok hj).2.2.1
  · intro s scores
    rcases cmdResult_fields s scores with ⟨_, htk, _, _, _⟩ | ⟨_, _, htk, _, _⟩
    · exact stakesPreserved_of_eq htk
    · exact stakesPreserved_of_eq htk
  · intro s md ext
    exact stakesPreserved_of_eq (fetchBundesligaRound_fields s md ext).2.1

/-- Claim C7, witness: a ticket of stake 4 that passes rounds 1 and 2 of
the compounding state ends with stake 4 × 1.5², and a deposit leaves its
stake unchanged. -/
theorem stake_compounds_witness :
    findTicket (settleRounds compoundSt
        (([((1 : Nat), (10 : Nat), (11 : Nat)), (2, 12, 13)] :
          List (Nat × Nat × Nat)).map (fun p => p.1))).tickets 1 1 =
      some { (⟨1, 1, 4, TkStatus.active⟩ : TicketR) with
        stakeAmount := 4 * (3/2 : ℚ) ^
          ([((1 : Nat), (10 : Nat), (11 : Nat)), (2, 12, 13)] :
            List (Nat × Nat × Nat)).length } ∧
    (∃ tk1, findTicket (stOf compoundSt (deposit compoundSt 7 1)).tickets 1 1 = some tk1 ∧
      tk1.stakeAmount = (⟨1, 1, 4, TkStatus.active⟩ : TicketR).stakeAmount) :=
  ⟨stake_compounds_only_at_settlement.1 1 1 compoundSt
      [(1, 10, 11), (2, 12, 13)]
      (PassesAll.cons _ _ _ _ _ (by decide)
        (PassesAll.cons _ _ _ _ _ (by decide) (PassesAll.nil _)))
      ⟨1, 1, 4, TkStatus.active⟩ (by decide),
    stake_compounds_only_at_settlement.2.1 compoundSt 7 1 1 1
      ⟨1, 1, 4, TkStatus.active⟩ (by decide)⟩

/-- Claim C6: cashing out an active entry succeeds, credits the user's
balance (rounded to 6 decimals) by the `cash_out` amount — which equals
the sum of the entry's active ticket stakes whenever that sum is
positive, the legacy fallback applying only otherwise — marks the entry
`cashed_out`, and a second cash-out of the same entry fails with
`EntryNotActive` (the one-shot guard). -/
theorem cashOut_credits_and_oneshot (s : St) (eid : Nat) (e : EntryR)
    (hfe : findEntry s eid = some e)
    (hact : e.status = EStatus.active)
    (hu : (s.users.find? (fun u => u.id == e.userId)).isSome = true) :
    (0 < qSum ((s.tickets.filter (fun t =>
        t.entryId == eid && t.status == TkStatus.active)).map (fun t => t.stakeAmount)) →
      cashOutAmount s eid e = qSum ((s.tickets.filter (fun t =>
        t.entryId == eid && t.status == TkStatus.active)).map (fun t => t.stakeAmount))) ∧
    ∃ s1, cashOut s eid = Except.ok s1 ∧
      balanceOf s1 e.userId = round6 (balanceOf s e.userId + cashOutAmount s eid e) ∧
      findEntry s1 eid = some { e with status := EStatus.cashedOut } ∧
      cashOut s1 eid = Except.error Err.entryNotActive := by
  have hne : ¬ (e.status ≠ EStatus.active) := fun hcon => hcon hact
  constructor
  · intro hpos
    simp only [cashOutAmount]
    rw [if_neg (not_le.mpr hpos)]
  · have hex : ∃ s1, cashOut s eid = Except.ok s1 := by
      simp only [cashOut]
      rw [hfe]
      simp only []
      rw [if_neg hne]
      exact ⟨_, rfl⟩
    obtain ⟨s1, hok⟩ := hex
    have hok2 := hok
    simp only [cashOut] at hok2
    rw [hfe] at hok2
    simp only [] at hok2
    rw [if_neg hne] at hok2
    injection hok2 with hok2
    have hent : s1.entries = s.entries.map (fun x =>
        if x.id == eid then { x with status := EStatus.cashedOut } else x) := by
      rw [← hok2]
      rfl
    have husers : s1.users = (setUserBalance s e.userId
        (qAdd (balanceOf s e.userId) (cashOutAmount s eid e))).users := by
      rw [← hok2]
      rfl
    have hfe' : s.entries.find? (fun x => x.id == eid) = some e := hfe
    have hid := List.find?_some hfe'
    have hfe2 : findEntry s1 eid = some { e with status := EStatus.cashedOut } := by
      rw [findEntry, hent, find?_map_entry _ _ (fun x => by split <;> rfl) eid, hfe']
      simp only [Option.map]
      rw [if_pos hid]
    refine ⟨s1, hok, ?_, hfe2, ?_⟩
    · have hb := balanceOf_setUserBalance s e.userId
        (qAdd (balanceOf s e.userId) (cashOutAmount s eid e)) hu
      have hb2 : round6 (qAdd (balanceOf s e.userId) (cashOutAmount s eid e)) =
          round6 (balanceOf s e.userId + cashOutAmount s eid e) := by
        rw [qAdd_eq]
      calc balanceOf s1 e.userId
          = balanceOf (setUserBalance s e.userId
              (qAdd (balanceOf s e.userId) (cashOutAmount s eid e))) e.userId := by
            unfold balanceOf
            rw [husers]
            rfl
        _ = round6 (balanceOf s e.userId + cashOutAmount s eid e) := hb.trans hb2
    · simp only [cashOut]
      rw [hfe2]
      rfl

/-- Claim C6, witness: the specification's scenario — an entry with two
active tickets of stakes 10 and 15 — credits exactly 25 to a balance of
0, marks the entry cashed out, and cannot be cashed out again. -/
theorem cashOut_credits_witness :
    cashOutAmount cashOutSt 1 ⟨1, 7, EStatus.active, none, some 10⟩ =
      qSum ((cashOutSt.tickets.filter (fun t =>
        t.entryId == 1 && t.status == TkStatus.active)).map (fun t => t.stakeAmount)) ∧
    cashOutAmount cashOutSt 1 ⟨1, 7, EStatus.active, none, some 10⟩ = 25 ∧
    round6 (qAdd (balanceOf cashOutSt 7) 25) = 25 ∧
    ∃ s1, cashOut cashOutSt 1 = Except.ok s1 ∧
      balanceOf s1 7 = round6 (balanceOf cashOutSt 7 +
        cashOutAmount cashOutSt 1 ⟨1, 7, EStatus.active, none, some 10⟩) ∧
      findEntry s1 1 = some ⟨1, 7, EStatus.cashedOut, none, some 10⟩ ∧
      cashOut s1 1 = Except.error Err.entryNotActive :=
  ⟨(cashOut_credits_and_oneshot cashOutSt 1 ⟨1, 7, EStatus.active, none, some 10⟩
      (by decide) (by decide) (by decide)).1 (by decide),
    by decide, by decide,
    (cashOut_credits_and_oneshot cashOutSt 1 ⟨1, 7, EStatus.active, none, some 10⟩
      (by decide) (by decide) (by decide)).2⟩

/-- Claim C9: against an active game, a positive balance and no prior
entry, `join_game` rejects a stake below the 0.1 minimum with
`InvalidStake`, and rejects a valid stake whose rounded total cost
`round2(round2(stake) × num_tickets)` exceeds the balance with
`InsufficientBalance`; every failure leaves the state unchanged (no
debit, no entry, no tickets). -/
theorem joinGame_rejections (s : St) (uid : Nat) (stake : ℚ) (cnt : Option Int)
    (hactive : s.game.status = GStatus.active)
    (hbal : 0 < balanceOf s uid)
    (hnj : s.entries.find? (fun e => e.userId == uid) = none) :
    (stake < mkRat 1 10 →
      joinGame s uid (some stake) cnt = Except.error Err.invalidStake) ∧
    (mkRat 1 10 ≤ stake →
      balanceOf s uid < round2 (qMul (round2 stake)
        (((max 1 (min 10 (pyOrInt cnt 1))).toNat : ℕ) : ℚ)) →
      joinGame s uid (some stake) cnt = Except.error Err.insufficientBalance) ∧
    (∀ er : Err, joinGame s uid (some stake) cnt = Except.error er →
      stOf s (joinGame s uid (some stake) cnt) = s) := by
  have h1 : ¬ (s.game.status ≠ GStatus.active) := fun hc => hc hactive
  have h2 : ¬ (balanceOf s uid ≤ 0) := not_le.mpr hbal
  have h3 : ¬ ((s.entries.find? (fun e => e.userId == uid)).isSome = true) := by
    rw [hnj]
    simp
  refine ⟨?_, ?_, ?_⟩
  · intro hst
    have hst' : (some stake).getD (mkRat 1 10) < mkRat 1 10 := hst
    simp only [joinGame]
    rw [if_neg h1, if_neg h2, if_neg h3, if_pos hst']
  · intro hst hlt
    have hst' : ¬ ((some stake).getD (mkRat 1 10) < mkRat 1 10) := not_lt.mpr hst
    have hlt' : balanceOf s uid < round2 (qMul (round2 ((some stake).getD (mkRat 1 10)))
        (((max 1 (min 10 (pyOrInt cnt 1))).toNat : ℕ) : ℚ)) := hlt
    simp only [joinGame]
    rw [if_neg h1, if_neg h2, if_neg h3, if_neg hst', if_pos hlt']
  · intro er her
    rw [her]
    rfl

/-- Claim C9, witness: the specification's scenario — joining with stake
0.1 and 3 tickets against balance 0.25 — fails with insufficient balance
and leaves the state unchanged, while a stake of 0.05 fails as invalid. -/
theorem joinGame_rejections_witness :
    joinGame joinSt 7 (some (mkRat 1 20)) (some 3) = Except.error Err.invalidStake ∧
    joinGame joinSt 7 (some (mkRat 1 10)) (some 3) = Except.error Err.insufficientBalance ∧
    stOf joinSt (joinGame joinSt 7 (some (mkRat 1 10)) (some 3)) = joinSt := by
  have hA := joinGame_rejections joinSt 7 (mkRat 1 20) (some 3) (by decide) (by decide) (by decide)
  have hB := joinGame_rejections joinSt 7 (mkRat 1 10) (some 3) (by decide) (by decide) (by decide)
  refine ⟨hA.1 (by decide), hB.2.1 (by decide) (by decide), ?_⟩
  exact hB.2.2 Err.insufficientBalance (hB.2.1 (by decide) (by decide))

theorem joinGame_ok_num {s : St} {uid : Nat} {stake : ℚ} {cnt : Option Int} {s1 : St}
    (h : joinGame s uid (some stake) cnt = Except.ok s1)
    (huser : (s.users.find? (fun u => u.id == uid)).isSome = true) :
    s1.tickets = s.tickets ++
      (List.range ((max 1 (min 10 (pyOrInt cnt 1))).toNat)).map
        (fun i => ⟨s.nextEntryId, i + 1, round2 stake, TkStatus.active⟩) ∧
    balanceOf s1 uid = round6 (balanceOf s uid -
      round2 (round2 stake * (((max 1 (min 10 (pyOrInt cnt 1))).toNat : ℕ) : ℚ))) := by
  have hens : ensureUser s uid = s := by
    unfold ensureUser
    rw [if_pos huser]
  simp only [joinGame] at h
  by_cases hc1 : s.game.status ≠ GStatus.active
  · rw [if_pos hc1] at h; cases h
  rw [if_neg hc1] at h
  by_cases hc2 : balanceOf s uid ≤ 0
  · rw [if_pos hc2] at h; cases h
  rw [if_neg hc2] at h
  by_cases hc3 : (s.entries.find? (fun e => e.userId == uid)).isSome = true
  · rw [if_pos hc3] at h; cases h
  rw [if_neg hc3] at h
  by_cases hc4 : (some stake).getD (mkRat 1 10) < mkRat 1 10
  · rw [if_pos hc4] at h; cases h
  rw [if_neg hc4] at h
  by_cases hc5 : balanceOf s uid < round2 (qMul (round2 ((some stake).getD (mkRat 1 10)))
      (((max 1 (min 10 (pyOrInt cnt 1))).toNat : ℕ) : ℚ))
  · rw [if_pos hc5] at h; cases h
  rw [if_neg hc5] at h
  injection h with h
  constructor
  · rw [← h, hens]
    rfl
  · rw [← h, hens]
    have hb := balanceOf_setUserBalance s uid (qSub (balanceOf s uid)
      (round2 (qMul (round2 stake)
        (((max 1 (min 10 (pyOrInt cnt 1))).toNat : ℕ) : ℚ)))) huser
    have hb2 : round6 (qSub (balanceOf s uid)
        (round2 (qMul (round2 stake)
          (((max 1 (min 10 (pyOrInt cnt 1))).toNat : ℕ) : ℚ)))) =
        round6 (balanceOf s uid -
          round2 (round2 stake * (((max 1 (min 10 (pyOrInt cnt 1))).toNat : ℕ) : ℚ))) := by
      rw [qSub_eq, qMul_eq]
    exact hb.trans hb2

/-- Claim C10: a successful join creates exactly
`clamp(requested, 1, 10)` tickets — a missing or sub-1 request yields 1,
a request within 1..10 yields exactly the request, above 10 yields 10 —
each at the rounded stake, and debits
`round2(round2(stake) × clamped_count)`, not stake times the raw
request. -/
theorem joinGame_ticket_count_clamped (s : St) (uid : Nat) (stake : ℚ) (cnt : Option Int)
    (hactive : s.game.status = GStatus.active)
    (hbal : 0 < balanceOf s uid)
    (hnj : s.entries.find? (fun e => e.userId == uid) = none)
    (hst : mkRat 1 10 ≤ stake)
    (haff : ¬ (balanceOf s uid < round2 (qMul (round2 stake)
      (((max 1 (min 10 (pyOrInt cnt 1))).toNat : ℕ) : ℚ)))) :
    (∀ k : Int, cnt = some k → k ≤ 1 → (max 1 (min 10 (pyOrInt cnt 1))).toNat = 1) ∧
    (∀ k : Int, cnt = some k → 1 ≤ k → k ≤ 10 →
      ((max 1 (min 10 (pyOrInt cnt 1))).toNat : Int) = k) ∧
    (∀ k : Int, cnt = some k → 10 ≤ k → (max 1 (min 10 (pyOrInt cnt 1))).toNat = 10) ∧
    (cnt = none → (max 1 (min 10 (pyOrInt cnt 1))).toNat = 1) ∧
    ∃ s1, joinGame s uid (some stake) cnt = Except.ok s1 ∧
      s1.tickets = s.tickets ++
        (List.range ((max 1 (min 10 (pyOrInt cnt 1))).toNat)).map
          (fun i => ⟨s.nextEntryId, i + 1, round2 stake, TkStatus.active⟩) ∧
      balanceOf s1 uid = round6 (balanceOf s uid -
        round2 (round2 stake * (((max 1 (min 10 (pyOrInt cnt 1))).toNat : ℕ) : ℚ))) := by
  have huser : (s.users.find? (fun u => u.id == uid)).isSome = true := by
    cases hfind : s.users.find? (fun u => u.id == uid) with
    | none =>
      have hz : balanceOf s uid = 0 := by
        unfold balanceOf
        rw [hfind]
      rw [hz] at hbal
      exact absurd hbal (lt_irrefl 0)
    | some u => rfl
  have h1 : ¬ (s.game.status ≠ GStatus.active) := fun hc => hc hactive
  have h2 : ¬ (balanceOf s uid ≤ 0) := not_le.mpr hbal
  have h3 : ¬ ((s.entries.find? (fun e => e.userId == uid)).isSome = true) := by
    rw [hnj]
    simp
  have hst' : ¬ ((some stake).getD (mkRat 1 10) < mkRat 1 10) := not_lt.mpr hst
  have haff' : ¬ (balanceOf s uid < round2 (qMul (round2 ((some stake).getD (mkRat 1 10)))
      (((max 1 (min 10 (pyOrInt cnt 1))).toNat : ℕ) : ℚ))) := haff
  have hex : ∃ s1, joinGame s uid (some stake) cnt = Except.ok s1 := by
    simp only [joinGame]
    rw [if_neg h1, if_neg h2, if_neg h3, if_neg hst', if_neg haff']
    exact ⟨_, rfl⟩
  obtain ⟨s1, hok⟩ := hex
  have hnum := joinGame_ok_num hok huser
  refine ⟨?_, ?_, ?_, ?_, s1, hok, hnum.1, hnum.2⟩
  · intro k hk hk1
    subst hk
    simp only [pyOrInt]
    by_cases h0 : k = 0
    · rw [if_pos h0]
      decide
    · rw [if_neg h0]
      omega
  · intro k hk hk1 hk10
    subst hk
    simp only [pyOrInt]
    have h0 : ¬ (k = 0) := by omega
    rw [if_neg h0]
    omega
  · intro k hk hk10
    subst hk
    simp only [pyOrInt]
    have h0 : ¬ (k = 0) := by omega
    rw [if_neg h0]
    omega
  · intro hk
    subst hk
    decide

/-- Claim C10, witness: a request for 15 tickets of stake 0.2 against
balance 5 creates exactly 10 tickets and debits round2(0.2 × 10) = 2. -/
theorem joinGame_clamp_witness :
    (max 1 (min 10 (pyOrInt (some 15) 1))).toNat = 10 ∧
    ∃ s1, joinGame joinManySt 7 (some (mkRat 1 5)) (some 15) = Except.ok s1 ∧
      s1.tickets = joinManySt.tickets ++
        (List.range ((max 1 (min 10 (pyOrInt (some 15) 1))).toNat)).map
          (fun i => ⟨joinManySt.nextEntryId, i + 1, round2 (mkRat 1 5), TkStatus.active⟩) ∧
      balanceOf s1 7 = round6 (balanceOf joinManySt 7 -
        round2 (round2 (mkRat 1 5) * (((max 1 (min 10 (pyOrInt (some 15) 1))).toNat : ℕ) : ℚ))) := by
  have h := joinGame_ticket_count_clamped joinManySt 7 (mkRat 1 5) (some 15)
    (by decide) (by decide) (by decide) (by decide) (by decide)
  exact ⟨h.2.2.1 15 rfl (by decide), h.2.2.2.2⟩
